import Mathlib

/-!
EditEventPage: a shallow embedding of `src/pages/EditEventPage.jsx`.

The page is a React component.  Its component state (`event`, `categories`,
`isOpen`) becomes an explicit record, every handler and effect becomes a
function from a state to a new state together with the list of side effects it
produced (toasts, navigations, console output), and `try`/`catch` becomes a
match on an `Except` value.

The JavaScript built-ins the page calls (`parseInt`, `new Date`,
`Date.prototype.toISOString`, `String.prototype.slice`, `Array.prototype.find`,
`Array.prototype.map`, property access, object spread, `||`, `!`) are embedded
along ECMAScript.  Numbers are embedded by their integer value; `parseInt`
rounds to the nearest double.  What ECMAScript leaves to the implementation (the
local time zone and the fall-back of `Date.parse` on strings outside the ISO
format) is a parameter, `Host`.  The route parameter `eventId` is a string; an
absent parameter behaves as the string `undefined` in both places that use it.
-/

namespace EditEventPage

/-! ## JavaScript values -/

/-- A value obtained from `JSON.parse`, or `undefined` (the value of an absent
property).  `num n` is the Number with integer value `n`. -/
inductive JSVal where
  | undefined
  | null
  | bool (b : Bool)
  | num (n : Int)
  | str (s : String)
  | arr (items : List JSVal)
  | obj (fields : List (String × JSVal))

mutual
/-- Equality of JSON values is decidable. -/
def JSVal.decEq : (a b : JSVal) → Decidable (a = b)
  | .undefined, .undefined => isTrue rfl
  | .null, .null => isTrue rfl
  | .bool a, .bool b =>
    if h : a = b then isTrue (by rw [h]) else isFalse (by intro e; cases e; exact h rfl)
  | .num a, .num b =>
    if h : a = b then isTrue (by rw [h]) else isFalse (by intro e; cases e; exact h rfl)
  | .str a, .str b =>
    if h : a = b then isTrue (by rw [h]) else isFalse (by intro e; cases e; exact h rfl)
  | .arr a, .arr b =>
    match JSVal.decEqItems a b with
    | isTrue h => isTrue (by rw [h])
    | isFalse h => isFalse (by intro e; cases e; exact h rfl)
  | .obj a, .obj b =>
    match JSVal.decEqFields a b with
    | isTrue h => isTrue (by rw [h])
    | isFalse h => isFalse (by intro e; cases e; exact h rfl)
  | .undefined, .null | .undefined, .bool _ | .undefined, .num _ | .undefined, .str _
  | .undefined, .arr _ | .undefined, .obj _ => isFalse (by intro e; cases e)
  | .null, .undefined | .null, .bool _ | .null, .num _ | .null, .str _
  | .null, .arr _ | .null, .obj _ => isFalse (by intro e; cases e)
  | .bool _, .undefined | .bool _, .null | .bool _, .num _ | .bool _, .str _
  | .bool _, .arr _ | .bool _, .obj _ => isFalse (by intro e; cases e)
  | .num _, .undefined | .num _, .null | .num _, .bool _ | .num _, .str _
  | .num _, .arr _ | .num _, .obj _ => isFalse (by intro e; cases e)
  | .str _, .undefined | .str _, .null | .str _, .bool _ | .str _, .num _
  | .str _, .arr _ | .str _, .obj _ => isFalse (by intro e; cases e)
  | .arr _, .undefined | .arr _, .null | .arr _, .bool _ | .arr _, .num _
  | .arr _, .str _ | .arr _, .obj _ => isFalse (by intro e; cases e)
  | .obj _, .undefined | .obj _, .null | .obj _, .bool _ | .obj _, .num _
  | .obj _, .str _ | .obj _, .arr _ => isFalse (by intro e; cases e)
/-- Equality of lists of JSON values is decidable. -/
def JSVal.decEqItems : (a b : List JSVal) → Decidable (a = b)
  | [], [] => isTrue rfl
  | [], _ :: _ => isFalse (by intro e; cases e)
  | _ :: _, [] => isFalse (by intro e; cases e)
  | x :: xs, y :: ys =>
    match JSVal.decEq x y, JSVal.decEqItems xs ys with
    | isTrue h1, isTrue h2 => isTrue (by rw [h1, h2])
    | isFalse h, _ => isFalse (by intro e; cases e; exact h rfl)
    | _, isFalse h => isFalse (by intro e; cases e; exact h rfl)
/-- Equality of property lists is decidable. -/
def JSVal.decEqFields : (a b : List (String × JSVal)) → Decidable (a = b)
  | [], [] => isTrue rfl
  | [], _ :: _ => isFalse (by intro e; cases e)
  | _ :: _, [] => isFalse (by intro e; cases e)
  | (k, x) :: xs, (l, y) :: ys =>
    if hk : k = l then
      match JSVal.decEq x y, JSVal.decEqFields xs ys with
      | isTrue h1, isTrue h2 => isTrue (by rw [hk, h1, h2])
      | isFalse h, _ => isFalse (by intro e; cases e; exact h rfl)
      | _, isFalse h => isFalse (by intro e; cases e; exact h rfl)
    else isFalse (by intro e; cases e; exact hk rfl)
end

instance : DecidableEq JSVal := JSVal.decEq

deriving instance DecidableEq for Except

/-- The properties of an object, in insertion order; a key is looked up from
the front. -/
abbrev Obj := List (String × JSVal)

/-- A thrown JavaScript exception. -/
inductive JSError where
  | error (message : String)
  | typeError
  | rangeError
  | syntaxError
  | fetchFailed
  deriving DecidableEq, Repr

/-- A Number as `parseInt` returns it. -/
inductive JSNumber where
  | nan
  | posInf
  | negInf
  | int (n : Int)
  deriving DecidableEq, Repr

/-- Own-property lookup in an object: the value of `key`, or `undefined`. -/
def lookup (key : String) : Obj → JSVal
  | [] => JSVal.undefined
  | (k, v) :: rest => if k = key then v else lookup key rest

/-- Property assignment in an object literal, `{ ...fields, key: v }`: an
existing key keeps its position and takes the new value, a new key is added at
the end. -/
def setProp (key : String) (v : JSVal) : Obj → Obj
  | [] => [(key, v)]
  | (k, w) :: rest => if k = key then (k, v) :: rest else (k, w) :: setProp key v rest

/-- Property read `v.key`, for the property names the page reads (`id`,
`name`, `events`, `categories`, `title`, `description`, `startTime`,
`endTime`): a `TypeError` on `undefined` and `null`, the own property of an
object, and `undefined` on every other value (none of these names is an index,
`length`, or inherited). -/
def getProp (v : JSVal) (key : String) : Except JSError JSVal :=
  match v with
  | JSVal.undefined => Except.error JSError.typeError
  | JSVal.null => Except.error JSError.typeError
  | JSVal.obj fields => Except.ok (lookup key fields)
  | _ => Except.ok JSVal.undefined

/-- ToBoolean. -/
def truthy : JSVal → Bool
  | JSVal.undefined => false
  | JSVal.null => false
  | JSVal.bool b => b
  | JSVal.num n => n != 0
  | JSVal.str s => s != ""
  | JSVal.arr _ => true
  | JSVal.obj _ => true

/-- The operator `a || b`. -/
def jsOr (a b : JSVal) : JSVal := if truthy a then a else b

/-- The comparison `v === n` of a JSON value with a Number: true only for a
Number of the same value (`NaN` equals nothing, `-0` equals `0`). -/
def strictEqualsNumber (v : JSVal) (n : JSNumber) : Bool :=
  match v, n with
  | JSVal.num a, JSNumber.int b => a == b
  | _, _ => false

/-! ## Number to String and `parseInt` -/

/-- The character of a decimal digit. -/
def digitChar (d : Nat) : Char := Char.ofNat (48 + d)

/-- Decimal digits of `n`, most significant first (`fuel` bounds the number of
digits). -/
def decimalDigits : Nat → Nat → List Char
  | 0, _ => []
  | fuel + 1, n =>
    if n < 10 then [digitChar n] else decimalDigits fuel (n / 10) ++ [digitChar (n % 10)]

/-- Number::toString for an integer-valued Number below `10^21` in magnitude
(from there on JavaScript switches to exponent form). -/
def numberToString (n : Int) : String :=
  match n with
  | Int.ofNat m => String.mk (decimalDigits (m + 1) m)
  | Int.negSucc m => String.mk ('-' :: decimalDigits (m + 2) (m + 1))

/-- The white space and line terminators that `parseInt` skips. -/
def isStrWhiteSpaceChar (c : Char) : Bool :=
  let n := c.toNat
  n == 9 || n == 10 || n == 11 || n == 12 || n == 13 || n == 32 || n == 160 ||
  n == 5760 || (8192 ≤ n && n ≤ 8202) || n == 8232 || n == 8233 || n == 8239 ||
  n == 8287 || n == 12288 || n == 65279

/-- Drop leading white space. -/
def trimStart : List Char → List Char
  | [] => []
  | c :: cs => if isStrWhiteSpaceChar c then trimStart cs else c :: cs

/-- The value of a character as a digit in a radix up to 36. -/
def digitValue (c : Char) : Option Nat :=
  let n := c.toNat
  if 48 ≤ n ∧ n ≤ 57 then some (n - 48)
  else if 97 ≤ n ∧ n ≤ 122 then some (n - 87)
  else if 65 ≤ n ∧ n ≤ 90 then some (n - 55)
  else none

/-- Is `c` a digit of the radix? -/
def isRadixDigit (radix : Nat) (c : Char) : Bool :=
  match digitValue c with
  | some d => d < radix
  | none => false

/-- The value of the longest prefix of radix digits, read onto `acc`. -/
def accumulateDigits (radix : Nat) : Nat → List Char → Nat
  | acc, [] => acc
  | acc, c :: cs =>
    match digitValue c with
    | some d => if d < radix then accumulateDigits radix (acc * radix + d) cs else acc
    | none => acc

/-- Round a non-negative integer to the nearest double (ties to even); `none`
is overflow to `Infinity`. -/
def roundToDouble (m : Nat) : Option Nat :=
  if m < 2 ^ 53 then some m
  else
    let e := Nat.log2 m - 52
    let q := m / 2 ^ e
    let r := m % 2 ^ e
    let half := 2 ^ (e - 1)
    let q1 := if half < r ∨ (r = half ∧ q % 2 = 1) then q + 1 else q
    let v := q1 * 2 ^ e
    if v < 2 ^ 1024 then some v else none

/-- Give a magnitude its sign. -/
def applySign (negative : Bool) (m : Option Nat) : JSNumber :=
  match m with
  | some v => JSNumber.int (if negative then - (v : Int) else (v : Int))
  | none => if negative then JSNumber.negInf else JSNumber.posInf

/-- The digits part of `parseInt` with no radix argument: a `0x`/`0X` start
selects radix 16, otherwise radix 10; no digit at all is `NaN`. -/
def parseIntDigits (negative : Bool) (cs : List Char) : JSNumber :=
  match cs with
  | '0' :: 'x' :: rest | '0' :: 'X' :: rest =>
    match rest with
    | [] => JSNumber.nan
    | c :: _ =>
      if isRadixDigit 16 c then applySign negative (roundToDouble (accumulateDigits 16 0 rest))
      else JSNumber.nan
  | [] => JSNumber.nan
  | c :: _ =>
    if isRadixDigit 10 c then applySign negative (roundToDouble (accumulateDigits 10 0 cs))
    else JSNumber.nan

/-- The call `parseInt(s)` on a string. -/
def parseInt (s : String) : JSNumber :=
  match trimStart s.data with
  | '-' :: rest => parseIntDigits true rest
  | '+' :: rest => parseIntDigits false rest
  | cs => parseIntDigits false cs

/-! ## Dates: `new Date(v)`, `toISOString`, `slice` -/

/-- What ECMAScript leaves to the implementation. -/
structure Host where
  /-- The abstract operation LocalTZA: the offset of the local time zone in
  milliseconds, at a time value that is UTC (`true`) or local (`false`). -/
  localTZA : Int → Bool → Int
  /-- The result of `Date.parse` on a string that is not in the ISO format of
  the language standard (`none` is `NaN`). -/
  legacyParse : String → Option Int

/-- Milliseconds in a day. -/
def msPerDay : Int := 86400000

/-- The abstract operation DayFromYear: the day number of 1 January of `y`. -/
def dayFromYear (y : Int) : Int :=
  365 * (y - 1970) + (y - 1969) / 4 - (y - 1901) / 100 + (y - 1601) / 400

/-- Leap years of the proleptic Gregorian calendar. -/
def isLeapYear (y : Int) : Bool :=
  (y % 4 == 0 && y % 100 != 0) || y % 400 == 0

/-- Days of the year before month `m` (1 to 12). -/
def daysBeforeMonth (leap : Bool) (m : Nat) : Int :=
  let extra : Int := if leap then 1 else 0
  match m with
  | 1 => 0
  | 2 => 31
  | 3 => 59 + extra
  | 4 => 90 + extra
  | 5 => 120 + extra
  | 6 => 151 + extra
  | 7 => 181 + extra
  | 8 => 212 + extra
  | 9 => 243 + extra
  | 10 => 273 + extra
  | 11 => 304 + extra
  | _ => 334 + extra

/-- Number of days of month `m` (1 to 12). -/
def daysInMonth (leap : Bool) (m : Nat) : Nat :=
  match m with
  | 2 => if leap then 29 else 28
  | 4 => 30
  | 6 => 30
  | 9 => 30
  | 11 => 30
  | _ => 31

/-- The abstract operation MakeDay for a date of the calendar: the day number
of day `d` of month `m` (1 to 12) of year `y`. -/
def makeDay (y : Int) (m d : Nat) : Int :=
  dayFromYear y + daysBeforeMonth (isLeapYear y) m + ((d : Int) - 1)

/-- The abstract operation MakeTime, in milliseconds. -/
def makeTime (h m s ms : Nat) : Int :=
  (h : Int) * 3600000 + (m : Int) * 60000 + (s : Int) * 1000 + (ms : Int)

/-- The abstract operation TimeClip: a time value is at most `8.64e15`
milliseconds from the epoch, anything else is `NaN` (`none`). -/
def timeClip (t : Int) : Option Int :=
  if t.natAbs ≤ 8640000000000000 then some t else none

/-- Read exactly `n` decimal digits onto `acc`; the rest of the input is
returned with their value. -/
def readDigits : Nat → Nat → List Char → Option (Nat × List Char)
  | 0, acc, cs => some (acc, cs)
  | _ + 1, _, [] => none
  | n + 1, acc, c :: cs =>
    if isRadixDigit 10 c then readDigits n (acc * 10 + (c.toNat - 48)) cs else none

/-- The year of the ISO format: four digits, or a sign and six digits
(`-000000` is not a year). -/
def readYear (cs : List Char) : Option (Int × List Char) :=
  match cs with
  | '+' :: rest =>
    match readDigits 6 0 rest with
    | some (y, r) => some ((y : Int), r)
    | none => none
  | '-' :: rest =>
    match readDigits 6 0 rest with
    | some (y, r) => if y = 0 then none else some (- (y : Int), r)
    | none => none
  | _ =>
    match readDigits 4 0 cs with
    | some (y, r) => some ((y : Int), r)
    | none => none

/-- The optional `-MM` and `-DD` of the ISO format (absent parts are 1). -/
def readMonthDay (cs : List Char) : Option (Nat × Nat × List Char) :=
  match cs with
  | '-' :: rest =>
    match readDigits 2 0 rest with
    | none => none
    | some (m, r) =>
      match r with
      | '-' :: rest2 =>
        match readDigits 2 0 rest2 with
        | none => none
        | some (d, r2) => some (m, d, r2)
      | _ => some (m, 1, r)
  | _ => some (1, 1, cs)

/-- The optional `:ss` and `.sss` of the ISO format (absent parts are 0). -/
def readSeconds (cs : List Char) : Option (Nat × Nat × List Char) :=
  match cs with
  | ':' :: rest =>
    match readDigits 2 0 rest with
    | none => none
    | some (s, r) =>
      match r with
      | '.' :: rest2 =>
        match readDigits 3 0 rest2 with
        | none => none
        | some (ms, r2) => some (s, ms, r2)
      | _ => some (s, 0, r)
  | _ => some (0, 0, cs)

/-- The time zone of a date-time form: `none` when the string does not end as
the format wants, otherwise `some none` for local time (no offset written) and
`some (some ms)` for a written offset from UTC in milliseconds (`Z` is 0). -/
def readOffset (cs : List Char) : Option (Option Int) :=
  match cs with
  | [] => some none
  | ['Z'] => some (some 0)
  | sign :: rest =>
    if sign = '+' ∨ sign = '-' then
      match readDigits 2 0 rest with
      | some (h, ':' :: rest2) =>
        match readDigits 2 0 rest2 with
        | some (m, []) =>
          if h ≤ 23 ∧ m ≤ 59 then
            let off : Int := ((h : Int) * 60 + (m : Int)) * 60000
            some (some (if sign = '-' then - off else off))
          else none
        | _ => none
      | _ => none
    else none

/-- The ISO format of `Date.parse` (Date Time String Format): `YYYY`,
`YYYY-MM` or `YYYY-MM-DD`, alone (read as UTC) or followed by `THH:mm`,
`THH:mm:ss` or `THH:mm:ss.sss` and then nothing (read as local time), `Z`, or
an offset `+HH:mm` / `-HH:mm`.  The result is the time value before TimeClip;
`none` when the string is not in the format or names no date of the calendar. -/
def parseIsoDate (host : Host) (cs : List Char) : Option Int :=
  match readYear cs with
  | none => none
  | some (y, r1) =>
    match readMonthDay r1 with
    | none => none
    | some (m, d, r2) =>
      if 1 ≤ m ∧ m ≤ 12 ∧ 1 ≤ d ∧ d ≤ daysInMonth (isLeapYear y) m then
        match r2 with
        | [] => some (makeDay y m d * msPerDay)
        | 'T' :: r3 =>
          match readDigits 2 0 r3 with
          | some (hh, ':' :: r4) =>
            match readDigits 2 0 r4 with
            | none => none
            | some (mi, r5) =>
              match readSeconds r5 with
              | none => none
              | some (ss, ms, r6) =>
                if (hh ≤ 23 ∧ mi ≤ 59 ∧ ss ≤ 59) ∨ (hh = 24 ∧ mi = 0 ∧ ss = 0 ∧ ms = 0) then
                  let t := makeDay y m d * msPerDay + makeTime hh mi ss ms
                  match readOffset r6 with
                  | none => none
                  | some none => some (t - host.localTZA t false)
                  | some (some off) => some (t - off)
                else none
          | _ => none
        | _ => none
      else none

/-- The function `Date.parse`: the ISO format first, the implementation's own
fall-back on any other string; `none` is `NaN`. -/
def dateParse (host : Host) (s : String) : Option Int :=
  match parseIsoDate host s.data with
  | some t => timeClip t
  | none =>
    match host.legacyParse s with
    | some t => timeClip t
    | none => none

/-- The abstract operation YearFromTime on a day number: the year `y` with
`dayFromYear y ≤ day < dayFromYear (y + 1)`, found from the mean year length
and one step of correction. -/
def yearFromDay (day : Int) : Int :=
  let y := 1970 + day * 400 / 146097
  if day < dayFromYear y then y - 1
  else if dayFromYear (y + 1) ≤ day then y + 1
  else y

/-- The abstract operation MonthFromTime, as a month 1 to 12, from the day
within the year (0 to 365). -/
def monthFromDayInYear (leap : Bool) (dayInYear : Int) : Nat :=
  if dayInYear < daysBeforeMonth leap 2 then 1
  else if dayInYear < daysBeforeMonth leap 3 then 2
  else if dayInYear < daysBeforeMonth leap 4 then 3
  else if dayInYear < daysBeforeMonth leap 5 then 4
  else if dayInYear < daysBeforeMonth leap 6 then 5
  else if dayInYear < daysBeforeMonth leap 7 then 6
  else if dayInYear < daysBeforeMonth leap 8 then 7
  else if dayInYear < daysBeforeMonth leap 9 then 8
  else if dayInYear < daysBeforeMonth leap 10 then 9
  else if dayInYear < daysBeforeMonth leap 11 then 10
  else if dayInYear < daysBeforeMonth leap 12 then 11
  else 12

/-- Exactly `width` decimal digits of `n`, zero-padded on the left. -/
def padDigits : Nat → Nat → List Char
  | 0, _ => []
  | width + 1, n => padDigits width (n / 10) ++ [digitChar (n % 10)]

/-- The year of `toISOString`: four digits for the years 0 to 9999, otherwise
a sign and six digits. -/
def yearDigits (y : Int) : List Char :=
  if 0 ≤ y ∧ y ≤ 9999 then padDigits 4 y.toNat
  else (if y < 0 then '-' else '+') :: padDigits 6 y.natAbs

/-- The characters of `toISOString()` for a time value:
`YYYY-MM-DDTHH:mm:ss.sssZ` on the UTC time scale. -/
def isoChars (t : Int) : List Char :=
  let day := t / msPerDay
  let timeInDay := (t % msPerDay).toNat
  let y := yearFromDay day
  let leap := isLeapYear y
  let dayInYear := day - dayFromYear y
  let m := monthFromDayInYear leap dayInYear
  let d := (dayInYear - daysBeforeMonth leap m + 1).toNat
  yearDigits y ++ '-' :: padDigits 2 m ++ '-' :: padDigits 2 d ++
    'T' :: padDigits 2 (timeInDay / 3600000) ++ ':' :: padDigits 2 (timeInDay / 60000 % 60) ++
    ':' :: padDigits 2 (timeInDay / 1000 % 60) ++ '.' :: padDigits 3 (timeInDay % 1000) ++ ['Z']

/-- The method `Date.prototype.toISOString` on a date with the given time
value: a `RangeError` on an invalid date (`none`). -/
def toISOString (timeValue : Option Int) : Except JSError String :=
  match timeValue with
  | none => Except.error JSError.rangeError
  | some t => Except.ok (String.mk (isoChars t))

/-- The call `s.slice(0, n)` on a string of ASCII characters. -/
def sliceFromStart (n : Nat) (s : String) : String := String.mk (s.data.take n)

/-- Does the object have an own property `key`? -/
def hasOwn (key : String) : Obj → Bool
  | [] => false
  | (k, _) :: rest => if k = key then true else hasOwn key rest

mutual
/-- ToString of a JSON value (Number::toString as in `numberToString`).  An
object gives `[object Object]`, unless it has an own `toString` property: that
one, not being callable, hides the inherited method, and the conversion throws
a `TypeError`. -/
def jsToString : JSVal → Except JSError String
  | JSVal.undefined => Except.ok "undefined"
  | JSVal.null => Except.ok "null"
  | JSVal.bool b => Except.ok (if b then "true" else "false")
  | JSVal.num n => Except.ok (numberToString n)
  | JSVal.str s => Except.ok s
  | JSVal.arr items => joinItems items
  | JSVal.obj fields =>
    if hasOwn "toString" fields then Except.error JSError.typeError
    else Except.ok "[object Object]"
/-- The method `Array.prototype.join` with the separator `,`, which is what
ToString of an array is: `null` and `undefined` items give the empty string. -/
def joinItems : List JSVal → Except JSError String
  | [] => Except.ok ""
  | [JSVal.undefined] => Except.ok ""
  | [JSVal.null] => Except.ok ""
  | [x] => jsToString x
  | JSVal.undefined :: rest =>
    match joinItems rest with
    | Except.error e => Except.error e
    | Except.ok tail => Except.ok ("," ++ tail)
  | JSVal.null :: rest =>
    match joinItems rest with
    | Except.error e => Except.error e
    | Except.ok tail => Except.ok ("," ++ tail)
  | x :: rest =>
    match jsToString x with
    | Except.error e => Except.error e
    | Except.ok head =>
      match joinItems rest with
      | Except.error e => Except.error e
      | Except.ok tail => Except.ok (head ++ "," ++ tail)
end

/-- The time value of `new Date(v)`: `NaN` (`none`) for `undefined`, ToNumber
for `null`, booleans and Numbers, `Date.parse` for a string and for the string
that ToPrimitive gives for an array or an object (which may throw). -/
def newDate (host : Host) (v : JSVal) : Except JSError (Option Int) :=
  match v with
  | JSVal.undefined => Except.ok none
  | JSVal.null => Except.ok (timeClip 0)
  | JSVal.bool b => Except.ok (timeClip (if b then 1 else 0))
  | JSVal.num n => Except.ok (timeClip n)
  | JSVal.str s => Except.ok (dateParse host s)
  | other =>
    match jsToString other with
    | Except.error e => Except.error e
    | Except.ok s => Except.ok (dateParse host s)

/-- The function `formatDateTimeLocal` of the page:
`new Date(dateTimeString).toISOString().slice(0, 16)`. -/
def formatDateTimeLocal (host : Host) (dateTimeString : JSVal) : Except JSError String :=
  match newDate host dateTimeString with
  | Except.error e => Except.error e
  | Except.ok timeValue =>
    match toISOString timeValue with
    | Except.error e => Except.error e
    | Except.ok iso => Except.ok (sliceFromStart 16 iso)

/-! ## The page: state, effects, data loading -/

/-- The `status` of a toast. -/
inductive ToastStatus where
  | success
  | error
  | info
  deriving DecidableEq, Repr

/-- The options object passed to `toast(...)`. -/
structure Toast where
  title : String
  description : String
  status : ToastStatus
  duration : Nat
  isClosable : Bool
  deriving DecidableEq, Repr

/-- A side effect of the page, in the order the code produces them. -/
inductive Effect where
  | toast (options : Toast)
  | navigate (path : String)
  | consoleLog (label : String) (value : JSVal)
  | consoleError (label : String) (error : JSError)
  deriving DecidableEq

/-- An entry of the `categories` state: the object literal
`{ id: cat.id, name: cat.name }`. -/
structure Category where
  id : JSVal
  name : JSVal
  deriving DecidableEq

/-- The component state: `event` (`none` is `null`), `categories`, and
`isOpen` of `useDisclosure`. -/
structure PageState where
  event : Option Obj
  categories : List Category
  isOpen : Bool
  deriving DecidableEq

/-- The state at mount: `useState(null)`, `useState([])`, dialog closed. -/
def initialState : PageState := { event := none, categories := [], isOpen := false }

/-- A response of `fetch`: its `ok` flag and what `response.json()` resolves
to (`none` when the body is not JSON and `json()` rejects). -/
structure Response where
  ok : Bool
  body : Option JSVal

/-- The outcome of `await fetch(url)`: rejected, or resolved with a response. -/
inductive FetchResult where
  | rejected
  | resolved (response : Response)

/-- The method `Array.prototype.map` with a callback that may throw. -/
def arrayMap {β : Type} (f : JSVal → Except JSError β) : List JSVal → Except JSError (List β)
  | [] => Except.ok []
  | x :: xs =>
    match f x with
    | Except.error e => Except.error e
    | Except.ok y =>
      match arrayMap f xs with
      | Except.error e => Except.error e
      | Except.ok ys => Except.ok (y :: ys)

/-- The method `Array.prototype.find` with a predicate that may throw: the
first item the predicate accepts, `undefined` when there is none. -/
def arrayFind (p : JSVal → Except JSError Bool) : List JSVal → Except JSError JSVal
  | [] => Except.ok JSVal.undefined
  | x :: xs =>
    match p x with
    | Except.error e => Except.error e
    | Except.ok true => Except.ok x
    | Except.ok false => arrayFind p xs

/-- The callback `(cat) => ({ id: cat.id, name: cat.name })`. -/
def projectCategory (cat : JSVal) : Except JSError Category :=
  match getProp cat "id" with
  | Except.error e => Except.error e
  | Except.ok id =>
    match getProp cat "name" with
    | Except.error e => Except.error e
    | Except.ok name => Except.ok { id := id, name := name }

/-- The `try` block of `fetchCategories`, up to the value given to
`setCategories`. -/
def fetchCategoriesTry (result : FetchResult) : Except JSError (List Category) :=
  match result with
  | FetchResult.rejected => Except.error JSError.fetchFailed
  | FetchResult.resolved response =>
    if !response.ok then Except.error (JSError.error "Fout bij het ophalen van de categorieën")
    else
      match response.body with
      | none => Except.error JSError.syntaxError
      | some data =>
        match getProp data "categories" with
        | Except.error e => Except.error e
        | Except.ok (JSVal.arr items) => arrayMap projectCategory items
        | Except.ok _ => Except.error JSError.typeError

/-- The effect `fetchCategories`: on success `setCategories(uniqueCategories)`,
on any exception only `console.error`. -/
def fetchCategories (result : FetchResult) (s : PageState) : PageState × List Effect :=
  match fetchCategoriesTry result with
  | Except.ok uniqueCategories => ({ s with categories := uniqueCategories }, [])
  | Except.error e => (s, [Effect.consoleError "Fout bij het ophalen van de categorieën:" e])

/-- The callback `(e) => e.id === parseInt(eventId)`. -/
def matchesEventId (eventId : String) (e : JSVal) : Except JSError Bool :=
  match getProp e "id" with
  | Except.error err => Except.error err
  | Except.ok id => Except.ok (strictEqualsNumber id (parseInt eventId))

/-- Index keys `i`, `i + 1`, ... for the items of an array or string. -/
def indexed : Nat → List JSVal → Obj
  | _, [] => []
  | i, x :: xs => (numberToString (Int.ofNat i), x) :: indexed (i + 1) xs

/-- The own enumerable properties copied by a spread `{ ...v }`. -/
def spread : JSVal → Obj
  | JSVal.obj fields => fields
  | JSVal.arr items => indexed 0 items
  | JSVal.str s => indexed 0 (s.data.map (fun c => JSVal.str (String.mk [c])))
  | _ => []

/-- The toast of the `catch` block of `fetchEvent`. -/
def loadErrorToast : Toast :=
  { title := "Fout", description := "Het evenement kon niet worden geladen.",
    status := ToastStatus.error, duration := 5000, isClosable := true }

/-- The `try` block of `fetchEvent`, up to the object given to `setEvent`. -/
def fetchEventTry (host : Host) (eventId : String) (result : FetchResult) : Except JSError Obj :=
  match result with
  | FetchResult.rejected => Except.error JSError.fetchFailed
  | FetchResult.resolved response =>
    if !response.ok then Except.error (JSError.error "Fout bij het ophalen van evenement")
    else
      match response.body with
      | none => Except.error JSError.syntaxError
      | some data =>
        match getProp data "events" with
        | Except.error e => Except.error e
        | Except.ok (JSVal.arr items) =>
          match arrayFind (matchesEventId eventId) items with
          | Except.error e => Except.error e
          | Except.ok foundEvent =>
            if !truthy foundEvent then Except.error (JSError.error "Evenement niet gevonden")
            else
              match getProp foundEvent "startTime" with
              | Except.error e => Except.error e
              | Except.ok startTime =>
                match formatDateTimeLocal host startTime with
                | Except.error e => Except.error e
                | Except.ok start =>
                  match getProp foundEvent "endTime" with
                  | Except.error e => Except.error e
                  | Except.ok endTime =>
                    match formatDateTimeLocal host endTime with
                    | Except.error e => Except.error e
                    | Except.ok finish =>
                      Except.ok
                        (setProp "endTime" (jsOr (JSVal.str finish) (JSVal.str "2023-12-01T22:00"))
                          (setProp "startTime"
                            (jsOr (JSVal.str start) (JSVal.str "2023-12-01T19:00"))
                            (spread foundEvent)))
        | Except.ok _ => Except.error JSError.typeError

/-- The effect `fetchEvent`: on success `setEvent(...)`, on any exception
`console.error` and the error toast, the state untouched. -/
def fetchEvent (host : Host) (eventId : String) (result : FetchResult) (s : PageState) :
    PageState × List Effect :=
  match fetchEventTry host eventId result with
  | Except.ok ev => ({ s with event := some ev }, [])
  | Except.error e =>
    (s, [Effect.consoleError "Fout bij het ophalen van evenement:" e, Effect.toast loadErrorToast])

/-! ## The page: handlers -/

/-- The properties copied by `{ ...event }` from the `event` state (`null`
has none). -/
def spreadEvent (event : Option Obj) : Obj :=
  match event with
  | none => []
  | some fields => fields

/-- The value of the `event` state as JavaScript sees it. -/
def eventValue (event : Option Obj) : JSVal :=
  match event with
  | none => JSVal.null
  | some fields => JSVal.obj fields

/-- A field input's `onChange`: `setEvent({ ...event, [field]: e.target.value })`
for `title`, `description`, `startTime` and `endTime`. -/
def onFieldChange (field : String) (value : String) (s : PageState) : PageState × List Effect :=
  ({ s with event := some (setProp field (JSVal.str value) (spreadEvent s.event)) }, [])

/-- The call `categories.find((cat) => cat.id === n)` on the `categories`
state. -/
def findCategory (n : JSNumber) : List Category → Option Category
  | [] => none
  | cat :: rest => if strictEqualsNumber cat.id n then some cat else findCategory n rest

/-- The category select's `onChange` with `e.target.value = value`. -/
def onCategoryChange (value : String) (s : PageState) : PageState × List Effect :=
  match findCategory (parseInt value) s.categories with
  | some selectedCategory =>
    ({ s with event := some (setProp "categories"
        (JSVal.arr [JSVal.obj [("id", selectedCategory.id), ("name", selectedCategory.name)]])
        (spreadEvent s.event)) }, [])
  | none => (s, [])

/-- The toast of the `try` block of `handleSave`. -/
def savedToast : Toast :=
  { title := "Evenement opgeslagen.", description := "De wijzigingen zijn succesvol opgeslagen.",
    status := ToastStatus.success, duration := 5000, isClosable := true }

/-- The toast of the `catch` block of `handleSave`. -/
def saveErrorToast : Toast :=
  { title := "Fout bij opslaan.",
    description := "Er is iets misgegaan bij het opslaan van de wijzigingen.",
    status := ToastStatus.error, duration := 5000, isClosable := true }

/-- The toast of `handleCancel`. -/
def cancelledToast : Toast :=
  { title := "Bewerking geannuleerd.", description := "De wijzigingen zijn niet opgeslagen.",
    status := ToastStatus.info, duration := 5000, isClosable := true }

/-- The toast of `confirmDelete`. -/
def deletedToast : Toast :=
  { title := "Evenement verwijderd.", description := "Het evenement is succesvol verwijderd.",
    status := ToastStatus.success, duration := 5000, isClosable := true }

/-- The template literal for the detail view, with the route parameter. -/
def detailPath (eventId : String) : String := "/event/" ++ eventId

/-- The `try` block of `handleSave`: the effects of its three calls, and the
exception that ends it, if any (`console.log`, `toast` and `navigate` return
normally). -/
def handleSaveTry (eventId : String) (s : PageState) : List Effect × Except JSError Unit :=
  ([Effect.consoleLog "Bewerkte evenement opgeslagen:" (eventValue s.event),
    Effect.toast savedToast,
    Effect.navigate (detailPath eventId)], Except.ok ())

/-- The handler `handleSave`: the `try` block, then the `catch` block when the
`try` block threw. -/
def handleSave (eventId : String) (s : PageState) : PageState × List Effect :=
  match handleSaveTry eventId s with
  | (effects, Except.ok _) => (s, effects)
  | (effects, Except.error e) =>
    (s, effects ++ [Effect.consoleError "Fout bij het opslaan van het evenement:" e,
      Effect.toast saveErrorToast])

/-- The handler `handleCancel`. -/
def handleCancel (eventId : String) (s : PageState) : PageState × List Effect :=
  (s, [Effect.toast cancelledToast, Effect.navigate (detailPath eventId)])

/-- The handler `handleDelete`: `onOpen()`. -/
def handleDelete (s : PageState) : PageState × List Effect :=
  ({ s with isOpen := true }, [])

/-- The handler `confirmDelete`: the toast, `onClose()`, `navigate("/")`. -/
def confirmDelete (s : PageState) : PageState × List Effect :=
  ({ s with isOpen := false }, [Effect.toast deletedToast, Effect.navigate "/"])

/-- The callback `onClose` of `useDisclosure`. -/
def onClose (s : PageState) : PageState × List Effect :=
  ({ s with isOpen := false }, [])

/-! ## The page: what is rendered, and the transitions it offers -/

/-- The number of UTF-16 code units of a string, its `length`. -/
def utf16Length : List Char → Nat
  | [] => 0
  | c :: cs => (if c.toNat < 65536 then 1 else 2) + utf16Length cs

/-- The property read `c.length`: a `TypeError` on `undefined` and `null`, the
number of items of an array, the number of code units of a string, the own
property of an object, `undefined` on a boolean or a Number. -/
def propLength (c : JSVal) : Except JSError JSVal :=
  match c with
  | JSVal.undefined => Except.error JSError.typeError
  | JSVal.null => Except.error JSError.typeError
  | JSVal.arr items => Except.ok (JSVal.num (Int.ofNat items.length))
  | JSVal.str s => Except.ok (JSVal.num (Int.ofNat (utf16Length s.data)))
  | JSVal.obj fields => Except.ok (lookup "length" fields)
  | _ => Except.ok JSVal.undefined

/-- The property read `c[0]` on a value other than `undefined` and `null`:
the first item of an array, the first code unit of a string, the own property
`0` of an object. -/
def firstItem (c : JSVal) : JSVal :=
  match c with
  | JSVal.arr (x :: _) => x
  | JSVal.str s => if s.data = [] then JSVal.undefined else JSVal.str (String.mk (s.data.take 1))
  | JSVal.obj fields => lookup "0" fields
  | _ => JSVal.undefined

/-- Drop trailing white space. -/
def trimEnd (cs : List Char) : List Char := (trimStart cs.reverse).reverse

/-- The longest run of decimal digits at the start, and what follows it. -/
def splitDigits : List Char → List Char × List Char
  | [] => ([], [])
  | c :: cs =>
    if isRadixDigit 10 c then ((c :: (splitDigits cs).1), (splitDigits cs).2) else ([], c :: cs)

/-- Is the list a non-empty run of digits of the radix? -/
def isDigitRun (radix : Nat) (cs : List Char) : Bool :=
  !cs.isEmpty && cs.all (isRadixDigit radix)

/-- The ExponentPart of a numeric string, absent (0) or `e`/`E` with a signed
run of digits; `none` when what is there is neither. -/
def readExponent (cs : List Char) : Option Int :=
  match cs with
  | [] => some 0
  | e :: rest =>
    if e = 'e' ∨ e = 'E' then
      match rest with
      | '+' :: ds => if isDigitRun 10 ds then some (Int.ofNat (accumulateDigits 10 0 ds)) else none
      | '-' :: ds =>
        if isDigitRun 10 ds then some (- Int.ofNat (accumulateDigits 10 0 ds)) else none
      | ds => if isDigitRun 10 ds then some (Int.ofNat (accumulateDigits 10 0 ds)) else none
    else none

/-- The value of an unsigned decimal literal of a numeric string (digits with
an optional fraction and exponent), as a mantissa `m` and a decimal exponent
`e` standing for `m * 10^e`; `none` when the text is no such literal. -/
def readUnsignedDecimal (cs : List Char) : Option (Nat × Int) :=
  match (splitDigits cs).2 with
  | '.' :: r2 =>
    if (splitDigits cs).1 = [] ∧ (splitDigits r2).1 = [] then none
    else
      match readExponent (splitDigits r2).2 with
      | none => none
      | some e =>
        some (accumulateDigits 10 0 ((splitDigits cs).1 ++ (splitDigits r2).1),
          e - Int.ofNat (splitDigits r2).1.length)
  | r1 =>
    if (splitDigits cs).1 = [] then none
    else
      match readExponent r1 with
      | none => none
      | some e => some (accumulateDigits 10 0 (splitDigits cs).1, e)

/-- Does `m * 10^e` round to a Number above zero?  It does when it is above
`2^-1075`, half the smallest positive double. -/
def roundsAboveZero (m : Nat) (e : Int) : Bool :=
  match e with
  | Int.ofNat _ => decide (0 < m)
  | Int.negSucc k => decide (10 ^ (k + 1) < m * 2 ^ 1075)

/-- Is an unsigned numeric string (`Infinity` or a decimal literal) above
zero as a Number? -/
def unsignedAboveZero (cs : List Char) : Bool :=
  if cs = "Infinity".data then true
  else
    match readUnsignedDecimal cs with
    | some (m, e) => roundsAboveZero m e
    | none => false

/-- Is the Number that ToNumber gives for a string above zero?  White space is
trimmed; the empty string is 0; `0x`, `0o` and `0b` literals take no sign; a
string that is no numeric literal is `NaN`. -/
def stringAboveZero (s : String) : Bool :=
  match trimEnd (trimStart s.data) with
  | [] => false
  | '-' :: _ => false
  | '+' :: rest => unsignedAboveZero rest
  | '0' :: 'x' :: rest | '0' :: 'X' :: rest =>
    isDigitRun 16 rest && decide (0 < accumulateDigits 16 0 rest)
  | '0' :: 'o' :: rest | '0' :: 'O' :: rest =>
    isDigitRun 8 rest && decide (0 < accumulateDigits 8 0 rest)
  | '0' :: 'b' :: rest | '0' :: 'B' :: rest =>
    isDigitRun 2 rest && decide (0 < accumulateDigits 2 0 rest)
  | cs => unsignedAboveZero cs

/-- The comparison `v > 0`: ToNumber of `v` (through ToPrimitive for an array
or an object, which may throw) compared with zero; `NaN` compares false. -/
def greaterThanZero (v : JSVal) : Except JSError Bool :=
  match v with
  | JSVal.undefined => Except.ok false
  | JSVal.null => Except.ok false
  | JSVal.bool b => Except.ok b
  | JSVal.num n => Except.ok (decide (0 < n))
  | JSVal.str s => Except.ok (stringAboveZero s)
  | other =>
    match jsToString other with
    | Except.error e => Except.error e
    | Except.ok s => Except.ok (stringAboveZero s)

/-- The `value` expression of the select,
`event.categories.length > 0 ? event.categories[0].id : ""`. -/
def selectValue (event : Obj) : Except JSError JSVal :=
  match propLength (lookup "categories" event) with
  | Except.error e => Except.error e
  | Except.ok length =>
    match greaterThanZero length with
    | Except.error e => Except.error e
    | Except.ok true => getProp (firstItem (lookup "categories" event)) "id"
    | Except.ok false => Except.ok (JSVal.str "")

/-- An `<option>` of the category select (the placeholder has no `key`). -/
structure OptionView where
  key : JSVal
  value : JSVal
  label : JSVal
  deriving DecidableEq

/-- The form as rendered: the `value` of the four inputs and of the select,
the options of the select, and `isOpen` as passed to the confirmation
dialog. -/
structure FormView where
  title : JSVal
  description : JSVal
  startTime : JSVal
  endTime : JSVal
  categoryValue : JSVal
  options : List OptionView
  dialogOpen : Bool
  deriving DecidableEq

/-- What the component does when rendered: it returns the loading paragraph,
or returns the form, or throws while building the form (nothing of the page is
then shown). -/
inductive View where
  | loading
  | form (view : FormView)
  | threw (error : JSError)
  deriving DecidableEq

/-- The option the select shows for `placeholder="Selecteer een categorie"`:
an option with the empty value, ahead of the children. -/
def placeholderOption : OptionView :=
  { key := JSVal.undefined, value := JSVal.str "", label := JSVal.str "Selecteer een categorie" }

/-- The options of the select: the placeholder, then the children
`categories.map((category) => <option ...>)`. -/
def selectOptions (categories : List Category) : List OptionView :=
  placeholderOption :: categories.map (fun category =>
    { key := category.id, value := category.id, label := category.name })

/-- The component body after the hooks: `if (!event) return <p>...</p>`, else
the form, whose select needs `event.categories`. -/
def render (s : PageState) : View :=
  match s.event with
  | none => View.loading
  | some event =>
    match selectValue event with
    | Except.error e => View.threw e
    | Except.ok categoryValue =>
      View.form
        { title := lookup "title" event
          description := lookup "description" event
          startTime := lookup "startTime" event
          endTime := lookup "endTime" event
          categoryValue := categoryValue
          options := selectOptions s.categories
          dialogOpen := s.isOpen }

/-- What the user can do on the page. -/
inductive Action where
  | editTitle (value : String)
  | editDescription (value : String)
  | editStartTime (value : String)
  | editEndTime (value : String)
  | selectCategory (value : String)
  | save
  | cancel
  | pressDelete
  | confirm
  | dismiss
  deriving DecidableEq

/-- Is the control of an action on the rendered page?  Only the form has
controls: the inputs, the select, the three buttons, and the two buttons and
the close of the confirmation dialog.  `isOpen` is passed to the dialog, but no
handler checks it: the buttons of the dialog can still be pressed after
`onClose()`, so they count as controls of the form whatever `isOpen` is. -/
def available (view : View) (_a : Action) : Bool :=
  match view with
  | View.form _ => true
  | _ => false

/-- The handler bound to the control of an action. -/
def handle (eventId : String) (a : Action) (s : PageState) : PageState × List Effect :=
  match a with
  | Action.editTitle value => onFieldChange "title" value s
  | Action.editDescription value => onFieldChange "description" value s
  | Action.editStartTime value => onFieldChange "startTime" value s
  | Action.editEndTime value => onFieldChange "endTime" value s
  | Action.selectCategory value => onCategoryChange value s
  | Action.save => handleSave eventId s
  | Action.cancel => handleCancel eventId s
  | Action.pressDelete => handleDelete s
  | Action.confirm => confirmDelete s
  | Action.dismiss => onClose s

/-- One transition of the page: an action whose control is rendered runs its
handler; `none` when the control is not there. -/
def step (eventId : String) (s : PageState) (a : Action) : Option (PageState × List Effect) :=
  if available (render s) a then some (handle eventId a s) else none

/-- The toasts among a list of effects, in order. -/
def toasts : List Effect → List Toast
  | [] => []
  | Effect.toast t :: rest => t :: toasts rest
  | _ :: rest => toasts rest

/-- The navigations among a list of effects, in order. -/
def navigations : List Effect → List String
  | [] => []
  | Effect.navigate path :: rest => path :: navigations rest
  | _ :: rest => navigations rest

/-- A transition of the page: a user action, or the completion of one of the
two fetches started by the effects. -/
inductive Transition where
  | user (a : Action)
  | eventFetched (result : FetchResult)
  | categoriesFetched (result : FetchResult)

/-- The state and effects after a transition; `none` when it is a user action
whose control is not rendered. -/
def transition (host : Host) (eventId : String) (s : PageState) :
    Transition → Option (PageState × List Effect)
  | Transition.user a => step eventId s a
  | Transition.eventFetched result => some (fetchEvent host eventId result s)
  | Transition.categoriesFetched result => some (fetchCategories result s)

/-- No entry of an events payload has an identifier that `===` the parsed
route parameter. -/
def NoMatchingEntry (eventId : String) (data : JSVal) : Prop :=
  ∀ items, getProp data "events" = Except.ok (JSVal.arr items) →
    ∀ e ∈ items, ∀ idv, getProp e "id" = Except.ok idv →
      strictEqualsNumber idv (parseInt eventId) = false

/-- The `e.target.value` the select's `onChange` sees when an option is
chosen, for an option whose `value` prop is a Number or a string: the `value`
attribute, which is the string conversion of the prop.  Other props are not
covered (`none`). -/
def targetValue (o : OptionView) : Option String :=
  match o.value with
  | JSVal.num n => some (numberToString n)
  | JSVal.str s => some s
  | _ => none

/-- The value of `event.categories` (`undefined` while `event` is `null`). -/
def eventCategories (s : PageState) : JSVal :=
  match s.event with
  | none => JSVal.undefined
  | some event => lookup "categories" event

/-- Is `event.categories` an array of at most one element? -/
def atMostOneCategory (s : PageState) : Bool :=
  match eventCategories s with
  | JSVal.arr items => decide (items.length ≤ 1)
  | _ => false

/-- The actions that edit the form: the four inputs and the select. -/
def isEdit : Action → Bool
  | Action.editTitle _ => true
  | Action.editDescription _ => true
  | Action.editStartTime _ => true
  | Action.editEndTime _ => true
  | Action.selectCategory _ => true
  | _ => false

/-- The states reached from `s0` by a successful `fetchEvent` followed by any
sequence of edits; the category fetch may complete at any point in between. -/
inductive Reachable (host : Host) (eventId : String) (result : FetchResult) (s0 : PageState) :
    PageState → Prop where
  | loaded : (fetchEventTry host eventId result).isOk = true →
      Reachable host eventId result s0 (fetchEvent host eventId result s0).1
  | edit (s s' : PageState) (a : Action) (effects : List Effect) :
      Reachable host eventId result s0 s → isEdit a = true →
      step eventId s a = some (s', effects) → Reachable host eventId result s0 s'
  | categoriesFetched (s : PageState) (r : FetchResult) :
      Reachable host eventId result s0 s →
      Reachable host eventId result s0 (fetchCategories r s).1

/-! ## Sample data -/

/-- A host in UTC whose `Date.parse` accepts the ISO format only. -/
def utcHost : Host := { localTZA := fun _ _ => 0, legacyParse := fun _ => none }

/-- A host one hour ahead of UTC whose `Date.parse` accepts the ISO format
only. -/
def plusOneHost : Host := { localTZA := fun _ _ => 3600000, legacyParse := fun _ => none }

/-- A category payload with two entries. -/
def sampleCategories : JSVal :=
  JSVal.obj [("categories", JSVal.arr [
    JSVal.obj [("name", JSVal.str "sports"), ("id", JSVal.num 1)],
    JSVal.obj [("name", JSVal.str "games"), ("id", JSVal.num 2)]])]

/-- An events payload with two entries; the second has two categories. -/
def sampleEvents : JSVal :=
  JSVal.obj [("events", JSVal.arr [
    JSVal.obj [("id", JSVal.num 1), ("createdBy", JSVal.num 1), ("title", JSVal.str "Padel"),
      ("description", JSVal.str "Beginners welcome"),
      ("categories", JSVal.arr [JSVal.obj [("id", JSVal.num 1), ("name", JSVal.str "sports")]]),
      ("startTime", JSVal.str "2023-03-10T17:00:00.000Z"),
      ("endTime", JSVal.str "2023-03-10T18:30:00.000Z")],
    JSVal.obj [("id", JSVal.num 2), ("createdBy", JSVal.num 2), ("title", JSVal.str "Chess"),
      ("description", JSVal.str "Bring a clock"),
      ("categories", JSVal.arr [JSVal.obj [("id", JSVal.num 1), ("name", JSVal.str "sports")],
        JSVal.obj [("id", JSVal.num 2), ("name", JSVal.str "games")]]),
      ("startTime", JSVal.str "2023-03-15T12:00:00.000Z"),
      ("endTime", JSVal.str "2023-03-15T15:00:00.000Z")]])]

/-- A successful response with the given body. -/
def okResponse (data : JSVal) : FetchResult :=
  FetchResult.resolved { ok := true, body := some data }

/-- The page of event 1 after both sample payloads arrived. -/
def sampleEditing : PageState :=
  (fetchCategories (okResponse sampleCategories)
    (fetchEvent utcHost "1" (okResponse sampleEvents) initialState).1).1

/-- A category payload of two entries of which the second is `null`. -/
def nullEntryCategories : JSVal :=
  JSVal.obj [("categories", JSVal.arr [
    JSVal.obj [("id", JSVal.num 1), ("name", JSVal.str "sports")], JSVal.null])]

/-- A category payload in which the third entry repeats the identifier of the
first. -/
def repeatedIdCategories : JSVal :=
  JSVal.obj [("categories", JSVal.arr [
    JSVal.obj [("name", JSVal.str "sports"), ("id", JSVal.num 1)],
    JSVal.obj [("name", JSVal.str "games"), ("id", JSVal.num 2)],
    JSVal.obj [("name", JSVal.str "relaxation"), ("id", JSVal.num 1)]])]

/-- The page of event 1 after the sample events and the payload with the
repeated identifier arrived. -/
def repeatedIdEditing : PageState :=
  (fetchCategories (okResponse repeatedIdCategories)
    (fetchEvent utcHost "1" (okResponse sampleEvents) initialState).1).1

/-- The third option of the select on `repeatedIdEditing`. -/
def relaxationOption : OptionView :=
  { key := JSVal.num 1, value := JSVal.num 1, label := JSVal.str "relaxation" }

/-- The first sixteen characters of `toISOString()` for a time value: the
UTC date and time to the minute. -/
def minuteString (t : Int) : String := sliceFromStart 16 (String.mk (isoChars t))

/-- As the specification words it, the minute-precision local date-time of an
instant, for a `datetime-local` input: `YYYY-MM-DDTHH:mm` read off the local
time `t + LocalTZA(t, true)` of the viewer. -/
def specLocalDateTime (host : Host) (t : Int) : String :=
  minuteString (t + host.localTZA t true)

/-- An events payload whose entries miss a timestamp: entry 3 has no
`startTime`, entry 4 has no `endTime`. -/
def untimedEvents : JSVal :=
  JSVal.obj [("events", JSVal.arr [
    JSVal.obj [("id", JSVal.num 3), ("title", JSVal.str "Quiz"),
      ("description", JSVal.str "Teams of four"), ("categories", JSVal.arr []),
      ("endTime", JSVal.str "2023-04-01T21:00:00.000Z")],
    JSVal.obj [("id", JSVal.num 4), ("title", JSVal.str "Walk"),
      ("description", JSVal.str "Bring boots"), ("categories", JSVal.arr []),
      ("startTime", JSVal.str "2023-04-02T09:00:00.000Z")]])]

/-! ## Basic facts -/

theorem detailPath_ne_home (eventId : String) : detailPath eventId ≠ "/" := by
  intro h
  have hlen := congrArg String.length h
  simp [detailPath, String.length_append] at hlen
  have h7 : String.length "/event/" = 7 := by decide
  have h1 : String.length "/" = 1 := by decide
  omega

theorem fetchEvent_effects (host : Host) (eventId : String) (result : FetchResult)
    (s : PageState) :
    (∃ ev, fetchEventTry host eventId result = Except.ok ev ∧
        fetchEvent host eventId result s = ({ s with event := some ev }, [])) ∨
    (∃ e, fetchEventTry host eventId result = Except.error e ∧
        fetchEvent host eventId result s =
          (s, [Effect.consoleError "Fout bij het ophalen van evenement:" e,
            Effect.toast loadErrorToast])) := by
  unfold fetchEvent
  cases h : fetchEventTry host eventId result with
  | ok ev => exact Or.inl ⟨ev, rfl, rfl⟩
  | error e => exact Or.inr ⟨e, rfl, rfl⟩

theorem fetchCategories_effects (result : FetchResult) (s : PageState) :
    (fetchCategories result s).2 = [] ∨
    ∃ e, (fetchCategories result s).2 =
      [Effect.consoleError "Fout bij het ophalen van de categorieën:" e] := by
  unfold fetchCategories
  cases fetchCategoriesTry result with
  | ok cs => exact Or.inl rfl
  | error e => exact Or.inr ⟨e, rfl⟩

theorem handle_no_delete_effect (eventId : String) (s : PageState) (a : Action)
    (ha : a ≠ Action.confirm) :
    deletedToast ∉ toasts (handle eventId a s).2 ∧ "/" ∉ navigations (handle eventId a s).2 := by
  have hpath := detailPath_ne_home eventId
  cases a with
  | confirm => exact absurd rfl ha
  | selectCategory value =>
    simp only [handle, onCategoryChange]
    split <;> simp [toasts, navigations]
  | save =>
    simp only [handle, handleSave, handleSaveTry, toasts, navigations]
    refine ⟨?_, ?_⟩
    · simp only [List.mem_singleton]; decide
    · simp only [List.mem_singleton]; exact Ne.symm hpath
  | cancel =>
    simp only [handle, handleCancel, toasts, navigations]
    refine ⟨?_, ?_⟩
    · simp only [List.mem_singleton]; decide
    · simp only [List.mem_singleton]; exact Ne.symm hpath
  | _ => simp [handle, onFieldChange, handleDelete, onClose, toasts, navigations]

theorem available_iff_form (s : PageState) (a : Action) :
    available (render s) a = true ↔ ∃ f, render s = View.form f := by
  cases h : render s with
  | loading => simp [available]
  | form f => simp [available]
  | threw e => simp [available]

theorem render_form_event (s : PageState) (f : FormView) (h : render s = View.form f) :
    s.event ≠ none := by
  intro hev
  simp [render, hev] at h

theorem render_isOpen (s : PageState) (f : FormView) (b : Bool) (h : render s = View.form f) :
    render { s with isOpen := b } = View.form { f with dialogOpen := b } := by
  cases hev : s.event with
  | none => simp [render, hev] at h
  | some ev =>
    simp only [render, hev] at h ⊢
    cases hsel : selectValue ev with
    | error e => simp [hsel] at h
    | ok v =>
      simp only [hsel, View.form.injEq] at h ⊢
      subst h
      rfl

/-! ## The confirmation dialog (C8, C9) and saving (C10) -/

/-- C8 (amended): among all transitions of the page (the user actions edit,
select, save, cancel, press delete, confirm, dismiss, and the completion of
either fetch), only the confirm action, on a page that shows the form, produces
the deletion toast or the navigation to `/`, and it produces exactly these two
and closes the dialog; pressing delete produces no effect at all and only opens
the dialog. -/
theorem delete_effects_only_from_confirm (host : Host) (eventId : String) (s s' : PageState)
    (tr : Transition) (effects : List Effect)
    (h : transition host eventId s tr = some (s', effects)) :
    ((deletedToast ∈ toasts effects ∨ "/" ∈ navigations effects) →
        tr = Transition.user Action.confirm ∧ (∃ f, render s = View.form f) ∧
        effects = [Effect.toast deletedToast, Effect.navigate "/"] ∧
        s' = { s with isOpen := false }) ∧
    (tr = Transition.user Action.pressDelete →
        effects = [] ∧ s' = { s with isOpen := true }) := by
  cases tr with
  | user a =>
    simp only [transition, step] at h
    split at h
    next hav =>
      simp only [Option.some.injEq] at h
      have he : (handle eventId a s).2 = effects := by rw [h]
      have hs : (handle eventId a s).1 = s' := by rw [h]
      refine ⟨?_, ?_⟩
      · intro hd
        by_cases ha : a = Action.confirm
        · subst ha
          simp only [handle, confirmDelete] at he hs
          exact ⟨rfl, (available_iff_form s _).mp hav, he.symm, hs.symm⟩
        · have hno := handle_no_delete_effect eventId s a ha
          rw [he] at hno
          rcases hd with hd | hd
          · exact absurd hd hno.1
          · exact absurd hd hno.2
      · intro ha
        cases ha
        simp only [handle, handleDelete] at he hs
        exact ⟨he.symm, hs.symm⟩
    next => simp at h
  | eventFetched result =>
    simp only [transition, Option.some.injEq] at h
    refine ⟨?_, by intro h0; cases h0⟩
    rcases fetchEvent_effects host eventId result s with ⟨ev, _, h2⟩ | ⟨e, _, h2⟩
    · rw [h2] at h
      simp only [Prod.mk.injEq] at h
      obtain ⟨_, h3⟩ := h
      subst h3
      simp [toasts, navigations]
    · rw [h2] at h
      simp only [Prod.mk.injEq] at h
      obtain ⟨_, h3⟩ := h
      subst h3
      simp only [toasts, navigations, List.mem_singleton, List.not_mem_nil, or_false]
      intro hd
      exact absurd hd (by decide)
  | categoriesFetched result =>
    simp only [transition, Option.some.injEq] at h
    refine ⟨?_, by intro h0; cases h0⟩
    have h3 : (fetchCategories result s).2 = effects := by rw [h]
    rcases fetchCategories_effects result s with h2 | ⟨e, h2⟩ <;>
      (rw [h2] at h3; subst h3; simp [toasts, navigations])

theorem delete_effects_only_from_confirm_witness :
    transition utcHost "1" { sampleEditing with isOpen := true }
        (Transition.user Action.confirm) =
      some (sampleEditing, [Effect.toast deletedToast, Effect.navigate "/"]) ∧
    deletedToast ∈ toasts [Effect.toast deletedToast, Effect.navigate "/"] ∧
    (∃ f, render { sampleEditing with isOpen := true } = View.form f) :=
  have h := delete_effects_only_from_confirm utcHost "1" { sampleEditing with isOpen := true }
    sampleEditing (Transition.user Action.confirm)
    [Effect.toast deletedToast, Effect.navigate "/"] (by decide)
  ⟨by decide, by decide, (h.1 (Or.inl (by decide))).2.1⟩

/-- C8 as stated fails: after delete is pressed and the dialog dismissed,
`isOpen` is `false`, and the confirm action from that state still emits the
deletion toast and navigates to `/`: `confirmDelete` does not look at
`isOpen`. -/
theorem confirm_after_dismiss_counterexample :
    step "1" sampleEditing Action.pressDelete =
      some ({ sampleEditing with isOpen := true }, []) ∧
    step "1" { sampleEditing with isOpen := true } Action.dismiss = some (sampleEditing, []) ∧
    sampleEditing.isOpen = false ∧
    confirmDelete sampleEditing =
      (sampleEditing, [Effect.toast deletedToast, Effect.navigate "/"]) ∧
    step "1" sampleEditing Action.confirm =
      some (sampleEditing, [Effect.toast deletedToast, Effect.navigate "/"]) :=
  ⟨by decide, by decide, by decide, by decide, by decide⟩

/-- C9: in every state, pressing delete and then confirming emit together
exactly one toast, the deletion success toast, and exactly one navigation, to
`/`; afterwards the dialog is closed and `event` and `categories` are as they
were; both actions are offered in every editing state, that is whenever the
page shows the form. -/
theorem delete_then_confirm (eventId : String) (s : PageState) :
    toasts ((handleDelete s).2 ++ (confirmDelete (handleDelete s).1).2) = [deletedToast] ∧
    deletedToast.status = ToastStatus.success ∧
    navigations ((handleDelete s).2 ++ (confirmDelete (handleDelete s).1).2) = ["/"] ∧
    (confirmDelete (handleDelete s).1).1 = { s with isOpen := false } ∧
    ((∃ f, render s = View.form f) →
      step eventId s Action.pressDelete = some (handleDelete s) ∧
      step eventId (handleDelete s).1 Action.confirm =
        some (confirmDelete (handleDelete s).1)) := by
  refine ⟨rfl, rfl, rfl, rfl, ?_⟩
  intro hf
  obtain ⟨f, hf⟩ := hf
  have h1 : available (render s) Action.pressDelete = true :=
    (available_iff_form s _).mpr ⟨f, hf⟩
  have h2 : available (render (handleDelete s).1) Action.confirm = true :=
    (available_iff_form _ _).mpr ⟨_, render_isOpen s f true hf⟩
  simp only [step, h1, h2, if_true, handle]
  exact ⟨trivial, trivial⟩

theorem delete_then_confirm_witness :
    sampleEditing.event ≠ none ∧
    toasts ((handleDelete sampleEditing).2 ++
      (confirmDelete (handleDelete sampleEditing).1).2) = [deletedToast] ∧
    navigations ((handleDelete sampleEditing).2 ++
      (confirmDelete (handleDelete sampleEditing).1).2) = ["/"] ∧
    (confirmDelete (handleDelete sampleEditing).1).1 = sampleEditing ∧
    step "1" sampleEditing Action.pressDelete = some (handleDelete sampleEditing) ∧
    step "1" (handleDelete sampleEditing).1 Action.confirm =
      some (confirmDelete (handleDelete sampleEditing).1) :=
  have h := delete_then_confirm "1" sampleEditing
  have hstep := h.2.2.2.2 ⟨_, (by decide : render sampleEditing = View.form
    { title := JSVal.str "Padel", description := JSVal.str "Beginners welcome",
      startTime := JSVal.str "2023-03-10T17:00", endTime := JSVal.str "2023-03-10T18:30",
      categoryValue := JSVal.num 1,
      options := selectOptions sampleEditing.categories, dialogOpen := false })⟩
  ⟨by decide, h.1, h.2.2.1, h.2.2.2.1, hstep.1, hstep.2⟩

/-- C10: in every state, whatever the fields of the event hold, `handleSave`
leaves the state alone, ends its `try` block normally (so the `catch` block is
not run), emits exactly one toast, the success toast, and navigates exactly
once, to `/event/` followed by the route parameter; save is offered in every
editing state, that is whenever the page shows the form. -/
theorem save_always_succeeds (eventId : String) (s : PageState) :
    handleSave eventId s =
      (s, [Effect.consoleLog "Bewerkte evenement opgeslagen:" (eventValue s.event),
        Effect.toast savedToast, Effect.navigate ("/event/" ++ eventId)]) ∧
    (handleSaveTry eventId s).2 = Except.ok () ∧
    toasts (handleSave eventId s).2 = [savedToast] ∧
    savedToast.status = ToastStatus.success ∧
    navigations (handleSave eventId s).2 = ["/event/" ++ eventId] ∧
    ((∃ f, render s = View.form f) →
      step eventId s Action.save = some (handleSave eventId s)) := by
  refine ⟨rfl, rfl, rfl, rfl, rfl, ?_⟩
  intro hf
  simp only [step, (available_iff_form s Action.save).mpr hf, if_true, handle]

theorem save_always_succeeds_witness :
    (∃ f, render
      { event := some [("id", JSVal.num 1), ("title", JSVal.str ""),
          ("startTime", JSVal.str "2023-03-10T17:00"), ("endTime", JSVal.str "2023-03-10T09:00"),
          ("categories", JSVal.arr [])],
        categories := [], isOpen := false } = View.form f) ∧
    step "7"
      { event := some [("id", JSVal.num 1), ("title", JSVal.str ""),
          ("startTime", JSVal.str "2023-03-10T17:00"), ("endTime", JSVal.str "2023-03-10T09:00"),
          ("categories", JSVal.arr [])],
        categories := [], isOpen := false } Action.save =
      some (handleSave "7"
        { event := some [("id", JSVal.num 1), ("title", JSVal.str ""),
            ("startTime", JSVal.str "2023-03-10T17:00"),
            ("endTime", JSVal.str "2023-03-10T09:00"), ("categories", JSVal.arr [])],
          categories := [], isOpen := false }) ∧
    toasts (handleSave "7"
      { event := some [("id", JSVal.num 1), ("title", JSVal.str ""),
          ("startTime", JSVal.str "2023-03-10T17:00"), ("endTime", JSVal.str "2023-03-10T09:00"),
          ("categories", JSVal.arr [])],
        categories := [], isOpen := false }).2 = [savedToast] :=
  have hform : ∃ f, render
      { event := some [("id", JSVal.num 1), ("title", JSVal.str ""),
          ("startTime", JSVal.str "2023-03-10T17:00"), ("endTime", JSVal.str "2023-03-10T09:00"),
          ("categories", JSVal.arr [])],
        categories := [], isOpen := false } = View.form f :=
    ⟨{ title := JSVal.str "", description := JSVal.undefined,
        startTime := JSVal.str "2023-03-10T17:00", endTime := JSVal.str "2023-03-10T09:00",
        categoryValue := JSVal.str "", options := [placeholderOption], dialogOpen := false },
      by decide⟩
  have h := save_always_succeeds "7"
    { event := some [("id", JSVal.num 1), ("title", JSVal.str ""),
        ("startTime", JSVal.str "2023-03-10T17:00"), ("endTime", JSVal.str "2023-03-10T09:00"),
        ("categories", JSVal.arr [])],
      categories := [], isOpen := false }
  ⟨hform, h.2.2.2.2.2 hform, h.2.2.1⟩

/-! ## Loading the categories (C7) -/

theorem arrayMap_projectCategory (items : List JSVal)
    (h : ∀ e ∈ items, e ≠ JSVal.null ∧ e ≠ JSVal.undefined) :
    ∃ cats : List Category, arrayMap projectCategory items = Except.ok cats ∧
      cats.length = items.length ∧
      ∀ (i : Nat) (e : JSVal), items[i]? = some e → ∃ c : Category, cats[i]? = some c ∧
        getProp e "id" = Except.ok c.id ∧ getProp e "name" = Except.ok c.name := by
  induction items with
  | nil => exact ⟨[], rfl, rfl, by intro i e hi; simp at hi⟩
  | cons x xs ih =>
    obtain ⟨cats, hcats, hlen, hget⟩ := ih (fun e he => h e (List.mem_cons_of_mem _ he))
    have hx := h x (List.mem_cons_self _ _)
    obtain ⟨c, hc, hid, hname⟩ : ∃ c : Category, projectCategory x = Except.ok c ∧
        getProp x "id" = Except.ok c.id ∧ getProp x "name" = Except.ok c.name := by
      cases x with
      | undefined => exact absurd rfl hx.2
      | null => exact absurd rfl hx.1
      | _ => exact ⟨_, rfl, rfl, rfl⟩
    refine ⟨c :: cats, ?_, ?_, ?_⟩
    · simp only [arrayMap, hc, hcats]
    · simp [hlen]
    · intro i e hi
      cases i with
      | zero =>
        simp only [List.getElem?_cons_zero, Option.some.injEq] at hi
        subst hi
        exact ⟨c, by simp, hid, hname⟩
      | succ j =>
        simp only [List.getElem?_cons_succ] at hi
        obtain ⟨c2, h1, h2⟩ := hget j e hi
        exact ⟨c2, by simpa using h1, h2⟩

theorem arrayMap_projectCategory_null (items : List JSVal)
    (h : ∃ e ∈ items, e = JSVal.null ∨ e = JSVal.undefined) :
    arrayMap projectCategory items = Except.error JSError.typeError := by
  induction items with
  | nil =>
    obtain ⟨e, he, _⟩ := h
    simp at he
  | cons x xs ih =>
    by_cases hx : x = JSVal.null ∨ x = JSVal.undefined
    · rcases hx with hx | hx <;> (subst hx; rfl)
    · have hxs : ∃ e ∈ xs, e = JSVal.null ∨ e = JSVal.undefined := by
        obtain ⟨e, he, hnull⟩ := h
        rcases List.mem_cons.mp he with h1 | h1
        · exact absurd (h1 ▸ hnull) hx
        · exact ⟨e, h1, hnull⟩
      have hrest := ih hxs
      simp only [arrayMap, hrest]
      cases hp : projectCategory x with
      | error e =>
        cases x <;> simp_all [projectCategory, getProp]
      | ok c => rfl

/-- C7 (amended): for a successful response whose `categories` is an array of
`N` entries, if no entry is `null` then `fetchCategories` sets the category
list, without any effect and without touching the rest of the state, to `N`
objects, the `i`-th holding exactly the `id` and the `name` of the `i`-th
entry, and the select of the form then has `N + 1` options: its placeholder
(empty value), followed by `N` options in that order, the `i`-th with that `id`
as value and that `name` as label; if some entry is `null`, reading its `id`
throws, and `fetchCategories` only logs the `TypeError` and leaves the state as
it was. -/
theorem fetchCategories_projects (data : JSVal) (items : List JSVal) (s : PageState)
    (hdata : getProp data "categories" = Except.ok (JSVal.arr items)) :
    ((∀ e ∈ items, e ≠ JSVal.null ∧ e ≠ JSVal.undefined) →
      ∃ cats : List Category,
        fetchCategories (okResponse data) s = ({ s with categories := cats }, []) ∧
        cats.length = items.length ∧
        selectOptions cats = placeholderOption :: (selectOptions cats).tail ∧
        (selectOptions cats).length = items.length + 1 ∧
        (∀ f, render (fetchCategories (okResponse data) s).1 = View.form f →
          f.options = selectOptions cats) ∧
        ∀ (i : Nat) (e : JSVal), items[i]? = some e → ∃ c : Category, cats[i]? = some c ∧
          getProp e "id" = Except.ok c.id ∧ getProp e "name" = Except.ok c.name ∧
          (selectOptions cats)[i + 1]? =
            some { key := c.id, value := c.id, label := c.name }) ∧
    ((∃ e ∈ items, e = JSVal.null ∨ e = JSVal.undefined) →
      fetchCategories (okResponse data) s =
        (s, [Effect.consoleError "Fout bij het ophalen van de categorieën:"
          JSError.typeError])) := by
  refine ⟨?_, ?_⟩
  · intro hitems
    obtain ⟨cats, hcats, hlen, hget⟩ := arrayMap_projectCategory items hitems
    have hrun : fetchCategories (okResponse data) s = ({ s with categories := cats }, []) := by
      simp [fetchCategories, fetchCategoriesTry, okResponse, hdata, hcats]
    refine ⟨cats, hrun, hlen, rfl, by simp [selectOptions, hlen], ?_, ?_⟩
    · intro f hf
      rw [hrun] at hf
      simp only [render] at hf
      split at hf
      · cases hf
      · split at hf
        · cases hf
        · cases hf
          rfl
    · intro i e hi
      obtain ⟨c, h1, h2, h3⟩ := hget i e hi
      exact ⟨c, h1, h2, h3, by simp [selectOptions, h1]⟩
  · intro hnull
    have hfail := arrayMap_projectCategory_null items hnull
    simp [fetchCategories, fetchCategoriesTry, okResponse, hdata, hfail]

theorem fetchCategories_projects_witness :
    getProp sampleCategories "categories" = Except.ok (JSVal.arr [
      JSVal.obj [("name", JSVal.str "sports"), ("id", JSVal.num 1)],
      JSVal.obj [("name", JSVal.str "games"), ("id", JSVal.num 2)]]) ∧
    ∃ cats : List Category,
      fetchCategories (okResponse sampleCategories)
          (fetchEvent utcHost "1" (okResponse sampleEvents) initialState).1 =
        ({ (fetchEvent utcHost "1" (okResponse sampleEvents) initialState).1 with
            categories := cats }, []) ∧
      cats.length = 2 ∧ (selectOptions cats).length = 2 + 1 ∧
      ∃ f, render (fetchCategories (okResponse sampleCategories)
          (fetchEvent utcHost "1" (okResponse sampleEvents) initialState).1).1 = View.form f ∧
        f.options = selectOptions cats :=
  have hdata : getProp sampleCategories "categories" = Except.ok (JSVal.arr [
      JSVal.obj [("name", JSVal.str "sports"), ("id", JSVal.num 1)],
      JSVal.obj [("name", JSVal.str "games"), ("id", JSVal.num 2)]]) := by decide
  ⟨hdata, by
    obtain ⟨cats, h1, h2, _, h3, h4, _⟩ :=
      (fetchCategories_projects sampleCategories _
        (fetchEvent utcHost "1" (okResponse sampleEvents) initialState).1 hdata).1 (by decide)
    refine ⟨cats, h1, h2, h3, ?_⟩
    have hform : ∃ f, render (fetchCategories (okResponse sampleCategories)
        (fetchEvent utcHost "1" (okResponse sampleEvents) initialState).1).1 = View.form f :=
      ⟨{ title := JSVal.str "Padel", description := JSVal.str "Beginners welcome",
          startTime := JSVal.str "2023-03-10T17:00", endTime := JSVal.str "2023-03-10T18:30",
          categoryValue := JSVal.num 1,
          options := [placeholderOption, ⟨JSVal.num 1, JSVal.num 1, JSVal.str "sports"⟩,
            ⟨JSVal.num 2, JSVal.num 2, JSVal.str "games"⟩],
          dialogOpen := false }, by decide⟩
    obtain ⟨f, hf⟩ := hform
    exact ⟨f, hf, h4 f hf⟩⟩

/-- C7 as stated fails: with the two entries of `sampleCategories` the select
has three options, the first being the placeholder with the empty value; and
for a payload of two entries of which the second is `null`, the category list
is left empty. -/
theorem fetchCategories_counterexample :
    (match render sampleEditing with
      | View.form f => f.options
      | _ => []) =
      [placeholderOption,
        { key := JSVal.num 1, value := JSVal.num 1, label := JSVal.str "sports" },
        { key := JSVal.num 2, value := JSVal.num 2, label := JSVal.str "games" }] ∧
    placeholderOption.value = JSVal.str "" ∧
    getProp nullEntryCategories "categories" = Except.ok (JSVal.arr [
      JSVal.obj [("id", JSVal.num 1), ("name", JSVal.str "sports")], JSVal.null]) ∧
    fetchCategories (okResponse nullEntryCategories) initialState =
      (initialState, [Effect.consoleError "Fout bij het ophalen van de categorieën:"
        JSError.typeError]) ∧
    (fetchCategories (okResponse nullEntryCategories) initialState).1.categories = [] :=
  ⟨by decide, by decide, by decide, by decide, by decide⟩

/-! ## Loading the event: failure (C4) -/

theorem arrayFind_noMatch (eventId : String) (items : List JSVal)
    (h : ∀ e ∈ items, ∀ idv, getProp e "id" = Except.ok idv →
      strictEqualsNumber idv (parseInt eventId) = false) :
    arrayFind (matchesEventId eventId) items = Except.ok JSVal.undefined ∨
    ∃ err, arrayFind (matchesEventId eventId) items = Except.error err := by
  induction items with
  | nil => exact Or.inl rfl
  | cons x xs ih =>
    have hx := h x (List.mem_cons_self _ _)
    simp only [arrayFind, matchesEventId]
    cases hid : getProp x "id" with
    | error err => exact Or.inr ⟨err, rfl⟩
    | ok idv =>
      simp only [hx idv hid]
      exact ih (fun e he => h e (List.mem_cons_of_mem _ he))

theorem fetchEventTry_fails (host : Host) (eventId : String) (result : FetchResult)
    (hfail : result = FetchResult.rejected ∨
      ∃ r, result = FetchResult.resolved r ∧
        (r.ok = false ∨ ∀ data, r.body = some data → NoMatchingEntry eventId data)) :
    ∃ err, fetchEventTry host eventId result = Except.error err := by
  rcases hfail with h | ⟨r, h, hr⟩
  · subst h
    exact ⟨_, rfl⟩
  · subst h
    simp only [fetchEventTry]
    cases hok : r.ok with
    | false => exact ⟨_, rfl⟩
    | true =>
      have hr := hr.resolve_left (by simp [hok])
      simp only [Bool.not_true, Bool.false_eq_true, if_false]
      cases hbody : r.body with
      | none => exact ⟨_, rfl⟩
      | some data =>
        have hno := hr data hbody
        simp only []
        cases hev : getProp data "events" with
        | error err => exact ⟨err, rfl⟩
        | ok v =>
          cases v with
          | arr items =>
            simp only []
            rcases arrayFind_noMatch eventId items (hno items hev) with hf | ⟨err, hf⟩
            · rw [hf]
              exact ⟨_, rfl⟩
            · rw [hf]
              exact ⟨err, rfl⟩
          | _ => exact ⟨_, rfl⟩

/-- C4: when the fetch is rejected, or the response is not `ok`, or its body
is not JSON, or the payload has no entry whose `id` is `===` the parsed route
parameter (as always when the parameter does not parse to an integer), then
`fetchEvent` leaves the state as it was and emits `console.error` and exactly
one toast, the error toast; started with `event` still `null`, the component
therefore still returns the loading paragraph. -/
theorem fetchEvent_failure_keeps_loading (host : Host) (eventId : String)
    (result : FetchResult) (s : PageState) (hnull : s.event = none)
    (hfail : result = FetchResult.rejected ∨
      ∃ r, result = FetchResult.resolved r ∧
        (r.ok = false ∨ (∀ n, parseInt eventId ≠ JSNumber.int n) ∨
          ∀ data, r.body = some data → NoMatchingEntry eventId data)) :
    (∃ err, fetchEvent host eventId result s =
      (s, [Effect.consoleError "Fout bij het ophalen van evenement:" err,
        Effect.toast loadErrorToast])) ∧
    toasts (fetchEvent host eventId result s).2 = [loadErrorToast] ∧
    loadErrorToast.status = ToastStatus.error ∧
    (fetchEvent host eventId result s).1.event = none ∧
    render (fetchEvent host eventId result s).1 = View.loading := by
  have hfail2 : result = FetchResult.rejected ∨
      ∃ r, result = FetchResult.resolved r ∧
        (r.ok = false ∨ ∀ data, r.body = some data → NoMatchingEntry eventId data) := by
    rcases hfail with h | ⟨r, h, hr⟩
    · exact Or.inl h
    · refine Or.inr ⟨r, h, ?_⟩
      rcases hr with h1 | h2 | h3
      · exact Or.inl h1
      · refine Or.inr ?_
        intro data _ items _ e _ idv _
        cases idv <;> simp only [strictEqualsNumber]
        cases hp : parseInt eventId with
        | int n => exact absurd hp (h2 n)
        | _ => rfl
      · exact Or.inr h3
  obtain ⟨err, herr⟩ := fetchEventTry_fails host eventId result hfail2
  have hrun : fetchEvent host eventId result s =
      (s, [Effect.consoleError "Fout bij het ophalen van evenement:" err,
        Effect.toast loadErrorToast]) := by
    simp only [fetchEvent, herr]
  refine ⟨⟨err, hrun⟩, ?_, rfl, ?_, ?_⟩
  · rw [hrun]
    rfl
  · rw [hrun]
    exact hnull
  · rw [hrun]
    simp only [render, hnull]

theorem fetchEvent_failure_keeps_loading_witness :
    initialState.event = none ∧
    (okResponse sampleEvents = FetchResult.rejected ∨
      ∃ r, okResponse sampleEvents = FetchResult.resolved r ∧
        (r.ok = false ∨ (∀ n, parseInt "abc" ≠ JSNumber.int n) ∨
          ∀ data, r.body = some data → NoMatchingEntry "abc" data)) ∧
    toasts (fetchEvent utcHost "abc" (okResponse sampleEvents) initialState).2 =
      [loadErrorToast] ∧
    render (fetchEvent utcHost "abc" (okResponse sampleEvents) initialState).1 = View.loading :=
  have hparse : ∀ n, parseInt "abc" ≠ JSNumber.int n := by
    intro n h
    have h2 : parseInt "abc" = JSNumber.nan := by decide
    rw [h2] at h
    cases h
  have hfail : okResponse sampleEvents = FetchResult.rejected ∨
      ∃ r, okResponse sampleEvents = FetchResult.resolved r ∧
        (r.ok = false ∨ (∀ n, parseInt "abc" ≠ JSNumber.int n) ∨
          ∀ data, r.body = some data → NoMatchingEntry "abc" data) :=
    Or.inr ⟨_, rfl, Or.inr (Or.inl hparse)⟩
  have h := fetchEvent_failure_keeps_loading utcHost "abc" (okResponse sampleEvents)
    initialState rfl hfail
  ⟨rfl, hfail, h.2.1, h.2.2.2.2⟩

/-! ## Objects -/

theorem lookup_setProp_self (key : String) (v : JSVal) (o : Obj) :
    lookup key (setProp key v o) = v := by
  induction o with
  | nil => simp [setProp, lookup]
  | cons p rest ih =>
    obtain ⟨k, w⟩ := p
    by_cases hk : k = key
    · simp [setProp, lookup, hk]
    · simp [setProp, lookup, hk, ih]

theorem lookup_setProp_ne (key other : String) (v : JSVal) (o : Obj) (h : other ≠ key) :
    lookup other (setProp key v o) = lookup other o := by
  induction o with
  | nil => simp [setProp, lookup, Ne.symm h]
  | cons p rest ih =>
    obtain ⟨k, w⟩ := p
    by_cases hk : k = key
    · subst hk
      simp [setProp, lookup, Ne.symm h]
    · by_cases hk2 : k = other
      · subst hk2
        simp [setProp, lookup, hk]
      · simp [setProp, lookup, hk, hk2, ih]

/-! ## The categories of the edited event (C2) -/

theorem fetchCategories_event (r : FetchResult) (s : PageState) :
    (fetchCategories r s).1.event = s.event := by
  unfold fetchCategories
  cases fetchCategoriesTry r <;> rfl

theorem onFieldChange_categories (field value : String) (s : PageState) (ev : Obj)
    (hev : s.event = some ev) (hfield : "categories" ≠ field) :
    eventCategories (onFieldChange field value s).1 = eventCategories s := by
  simp [eventCategories, onFieldChange, hev, spreadEvent, lookup_setProp_ne _ _ _ _ hfield]

theorem onCategoryChange_categories (value : String) (s : PageState) :
    eventCategories (onCategoryChange value s).1 = eventCategories s ∨
    ∃ c : Category, eventCategories (onCategoryChange value s).1 =
      JSVal.arr [JSVal.obj [("id", c.id), ("name", c.name)]] := by
  unfold onCategoryChange
  split
  next c _ => exact Or.inr ⟨c, by simp [eventCategories, lookup_setProp_self]⟩
  next => exact Or.inl rfl

/-- C2 (amended): in every state reached from a successful `fetchEvent` by
edits of the four inputs and selections in the category select (and the arrival
of the category list), an event is loaded and `event.categories` is either what
`fetchEvent` stored, untouched, or a one-element array `[{ id, name }]`; so it
has at most one element whenever what `fetchEvent` stored had at most one. -/
theorem categories_loaded_or_single (host : Host) (eventId : String) (result : FetchResult)
    (s0 s : PageState) (h : Reachable host eventId result s0 s) :
    s.event ≠ none ∧
    (eventCategories s = eventCategories (fetchEvent host eventId result s0).1 ∨
      ∃ c : Category, eventCategories s =
        JSVal.arr [JSVal.obj [("id", c.id), ("name", c.name)]]) ∧
    (atMostOneCategory (fetchEvent host eventId result s0).1 = true →
      atMostOneCategory s = true) := by
  have key : s.event ≠ none ∧
      (eventCategories s = eventCategories (fetchEvent host eventId result s0).1 ∨
        ∃ c : Category, eventCategories s =
          JSVal.arr [JSVal.obj [("id", c.id), ("name", c.name)]]) := by
    induction h with
    | loaded hok =>
      refine ⟨?_, Or.inl rfl⟩
      unfold fetchEvent
      cases htry : fetchEventTry host eventId result with
      | ok ev => simp
      | error e => simp [htry, Except.isOk, Except.toBool] at hok
    | edit s s' a effects _ hedit hstep ih =>
      obtain ⟨hsome, hcat⟩ := ih
      obtain ⟨ev, hev⟩ := Option.ne_none_iff_exists'.mp hsome
      simp only [step] at hstep
      split at hstep
      next =>
        simp only [Option.some.injEq] at hstep
        have hs : (handle eventId a s).1 = s' := by rw [hstep]
        subst hs
        cases a with
        | editTitle v =>
          exact ⟨by simp [handle, onFieldChange],
            by rw [handle, onFieldChange_categories _ _ _ ev hev (by decide)]; exact hcat⟩
        | editDescription v =>
          exact ⟨by simp [handle, onFieldChange],
            by rw [handle, onFieldChange_categories _ _ _ ev hev (by decide)]; exact hcat⟩
        | editStartTime v =>
          exact ⟨by simp [handle, onFieldChange],
            by rw [handle, onFieldChange_categories _ _ _ ev hev (by decide)]; exact hcat⟩
        | editEndTime v =>
          exact ⟨by simp [handle, onFieldChange],
            by rw [handle, onFieldChange_categories _ _ _ ev hev (by decide)]; exact hcat⟩
        | selectCategory v =>
          refine ⟨?_, ?_⟩
          · simp only [handle, onCategoryChange]
            split
            · simp
            · exact hsome
          · simp only [handle]
            rcases onCategoryChange_categories v s with h1 | h1
            · rw [h1]; exact hcat
            · exact Or.inr h1
        | _ => simp [isEdit] at hedit
      next => simp at hstep
    | categoriesFetched s r _ ih =>
      have hev := fetchCategories_event r s
      refine ⟨by rw [hev]; exact ih.1, ?_⟩
      have hc : eventCategories (fetchCategories r s).1 = eventCategories s := by
        simp only [eventCategories, hev]
      rw [hc]
      exact ih.2
  refine ⟨key.1, key.2, ?_⟩
  intro hone
  rcases key.2 with h1 | ⟨c, h1⟩
  · simpa only [atMostOneCategory, h1] using hone
  · simp [atMostOneCategory, h1]

theorem categories_loaded_or_single_witness :
    Reachable utcHost "1" (okResponse sampleEvents) initialState
      (onCategoryChange "2" sampleEditing).1 ∧
    eventCategories (onCategoryChange "2" sampleEditing).1 =
      JSVal.arr [JSVal.obj [("id", JSVal.num 2), ("name", JSVal.str "games")]] ∧
    atMostOneCategory (onCategoryChange "2" sampleEditing).1 = true :=
  have hreach : Reachable utcHost "1" (okResponse sampleEvents) initialState
      (onCategoryChange "2" sampleEditing).1 :=
    Reachable.edit sampleEditing _ (Action.selectCategory "2") []
      (Reachable.categoriesFetched _ (okResponse sampleCategories) (Reachable.loaded (by decide)))
      rfl (by decide)
  ⟨hreach, by decide,
    (categories_loaded_or_single utcHost "1" (okResponse sampleEvents) initialState _ hreach).2.2
      (by decide)⟩

/-- C2 as stated fails: right after the successful load of an entry that has
two categories, the edited event has two categories. -/
theorem categories_counterexample :
    Reachable utcHost "2" (okResponse sampleEvents) initialState
      (fetchEvent utcHost "2" (okResponse sampleEvents) initialState).1 ∧
    eventCategories (fetchEvent utcHost "2" (okResponse sampleEvents) initialState).1 =
      JSVal.arr [JSVal.obj [("id", JSVal.num 1), ("name", JSVal.str "sports")],
        JSVal.obj [("id", JSVal.num 2), ("name", JSVal.str "games")]] ∧
    atMostOneCategory (fetchEvent utcHost "2" (okResponse sampleEvents) initialState).1 = false :=
  ⟨Reachable.loaded (by decide), by decide, by decide⟩

/-! ## `parseInt` reads back what Number::toString writes -/

theorem digitValue_digitChar (d : Nat) (h : d < 10) : digitValue (digitChar d) = some d := by
  interval_cases d <;> rfl

theorem digitChar_not_space (d : Nat) (h : d < 10) : isStrWhiteSpaceChar (digitChar d) = false := by
  interval_cases d <;> rfl

theorem digitChar_not_sign (d : Nat) (h : d < 10) :
    digitChar d ≠ '-' ∧ digitChar d ≠ '+' ∧ digitChar d ≠ 'x' ∧ digitChar d ≠ 'X' := by
  interval_cases d <;> decide

theorem decimalDigits_digits (fuel n : Nat) (h : n < fuel) :
    decimalDigits fuel n ≠ [] ∧ ∀ c ∈ decimalDigits fuel n, ∃ d, d < 10 ∧ c = digitChar d := by
  induction fuel generalizing n with
  | zero => omega
  | succ fuel ih =>
    unfold decimalDigits
    split
    next hlt => exact ⟨by simp, by intro c hc; simp at hc; exact ⟨n, hlt, hc⟩⟩
    next hge =>
      have hdiv : n / 10 < fuel := by omega
      obtain ⟨_, hall⟩ := ih (n / 10) hdiv
      refine ⟨by simp, ?_⟩
      intro c hc
      rcases List.mem_append.mp hc with hc | hc
      · exact hall c hc
      · simp at hc
        exact ⟨n % 10, Nat.mod_lt _ (by decide), hc⟩

theorem accumulateDigits_decimalDigits (fuel n : Nat) (h : n < fuel) (acc : Nat)
    (rest : List Char) :
    accumulateDigits 10 acc (decimalDigits fuel n ++ rest) =
      accumulateDigits 10 (acc * 10 ^ (decimalDigits fuel n).length + n) rest := by
  induction fuel generalizing n acc rest with
  | zero => omega
  | succ fuel ih =>
    unfold decimalDigits
    split
    next hlt =>
      simp [accumulateDigits, digitValue_digitChar n hlt, hlt]
    next hge =>
      have hdiv : n / 10 < fuel := by omega
      have hmod : n % 10 < 10 := Nat.mod_lt _ (by decide)
      rw [List.append_assoc, ih (n / 10) hdiv]
      simp only [List.singleton_append, accumulateDigits, digitValue_digitChar _ hmod, hmod,
        if_true, List.length_append, List.length_singleton]
      congr 1
      rw [pow_succ]
      have := Nat.div_add_mod n 10
      nlinarith [Nat.div_add_mod n 10]

theorem accumulateDigits_decimal (n : Nat) :
    accumulateDigits 10 0 (decimalDigits (n + 1) n) = n := by
  have h := accumulateDigits_decimalDigits (n + 1) n (Nat.lt_succ_self n) 0 []
  simpa [accumulateDigits] using h

theorem roundToDouble_safe (m : Nat) (h : m < 2 ^ 53) : roundToDouble m = some m := by
  unfold roundToDouble
  rw [if_pos h]

theorem parseIntDigits_decimal (negative : Bool) (n : Nat) (h : n < 2 ^ 53) :
    parseIntDigits negative (decimalDigits (n + 1) n) =
      JSNumber.int (if negative then - (n : Int) else (n : Int)) := by
  obtain ⟨hne, hall⟩ := decimalDigits_digits (n + 1) n (Nat.lt_succ_self n)
  have hval := accumulateDigits_decimal n
  generalize decimalDigits (n + 1) n = ds at hne hall hval
  have hfinish : applySign negative (roundToDouble (accumulateDigits 10 0 ds)) =
      JSNumber.int (if negative then - (n : Int) else (n : Int)) := by
    rw [hval, roundToDouble_safe n h]
    rfl
  unfold parseIntDigits
  split
  next rest =>
    obtain ⟨d, hd, hx⟩ := hall 'x' (by simp)
    exact absurd hx.symm (digitChar_not_sign d hd).2.2.1
  next rest =>
    obtain ⟨d, hd, hx⟩ := hall 'X' (by simp)
    exact absurd hx.symm (digitChar_not_sign d hd).2.2.2
  next => exact absurd rfl hne
  next c tail _ _ =>
    obtain ⟨d, hd, hc⟩ := hall c (by simp)
    simp only [isRadixDigit, hc, digitValue_digitChar d hd, decide_eq_true hd, if_true]
    rw [← hc]
    exact hfinish

/-- The round trip: `parseInt` gives back a safe integer from its decimal
form. -/
theorem parseInt_numberToString (n : Int) (h : n.natAbs < 2 ^ 53) :
    parseInt (numberToString n) = JSNumber.int n := by
  cases n with
  | ofNat m =>
    have hm : m < 2 ^ 53 := by simpa using h
    obtain ⟨hne, hall⟩ := decimalDigits_digits (m + 1) m (Nat.lt_succ_self m)
    have hp := parseIntDigits_decimal false m hm
    simp only [numberToString, parseInt]
    generalize decimalDigits (m + 1) m = ds at hne hall hp
    cases ds with
    | nil => exact absurd rfl hne
    | cons c tail =>
      obtain ⟨d, hd, hc⟩ := hall c (by simp)
      have htrim : trimStart (c :: tail) = c :: tail := by
        simp [trimStart, hc, digitChar_not_space d hd]
      rw [htrim]
      split
      next rest heq =>
        simp only [List.cons.injEq] at heq
        exact absurd (hc ▸ heq.1) (digitChar_not_sign d hd).1
      next rest heq =>
        simp only [List.cons.injEq] at heq
        exact absurd (hc ▸ heq.1) (digitChar_not_sign d hd).2.1
      next => simpa using hp
  | negSucc m =>
    have hm : m + 1 < 2 ^ 53 := by simpa using h
    have hp := parseIntDigits_decimal true (m + 1) hm
    simp only [numberToString, parseInt]
    have htrim : trimStart ('-' :: decimalDigits (m + 2) (m + 1)) =
        '-' :: decimalDigits (m + 2) (m + 1) := by
      simp [trimStart, isStrWhiteSpaceChar]
    rw [htrim]
    simp only [hp]
    rfl

/-! ## Selecting a category (C1) -/

theorem strictEqualsNumber_int (v : JSVal) (n : Int) :
    strictEqualsNumber v (JSNumber.int n) = true ↔ v = JSVal.num n := by
  cases v <;> simp [strictEqualsNumber]

theorem findCategory_first (n : Int) (cats : List Category)
    (h : ∃ c ∈ cats, c.id = JSVal.num n) :
    ∃ (before : List Category) (first : Category) (after : List Category),
      cats = before ++ first :: after ∧ first.id = JSVal.num n ∧
      (∀ c ∈ before, c.id ≠ JSVal.num n) ∧
      findCategory (JSNumber.int n) cats = some first := by
  induction cats with
  | nil =>
    obtain ⟨c, hc, _⟩ := h
    simp at hc
  | cons x xs ih =>
    by_cases hx : x.id = JSVal.num n
    · refine ⟨[], x, xs, rfl, hx, by simp, ?_⟩
      simp [findCategory, (strictEqualsNumber_int x.id n).mpr hx]
    · have hxs : ∃ c ∈ xs, c.id = JSVal.num n := by
        obtain ⟨c, hc, hid⟩ := h
        rcases List.mem_cons.mp hc with h1 | h1
        · exact absurd (h1 ▸ hid) hx
        · exact ⟨c, h1, hid⟩
      obtain ⟨before, first, after, hsplit, hid, hbefore, hfind⟩ := ih hxs
      refine ⟨x :: before, first, after, by simp [hsplit], hid, ?_, ?_⟩
      · intro c hc
        rcases List.mem_cons.mp hc with h1 | h1
        · exact h1 ▸ hx
        · exact hbefore c h1
      · have hne : strictEqualsNumber x.id (JSNumber.int n) = false := by
          cases hb : strictEqualsNumber x.id (JSNumber.int n) with
          | false => rfl
          | true => exact absurd ((strictEqualsNumber_int x.id n).mp hb) hx
        simp [findCategory, hne, hfind]

/-- What the select's `onChange` does in general: on a loaded event, choosing
an option whose identifier is a safe integer `n` sets `event.categories` to the
one-element array `[{ id: n, name }]`, where `name` is the name of the first
category of the list whose identifier is `n`; every other property of the
event, the category list and the dialog are unchanged and nothing is emitted.
When the identifiers of the list are pairwise distinct, that name is the label
of the chosen option. -/
theorem onCategoryChange_sets_first_match (s : PageState) (ev : Obj) (o : OptionView) (n : Int)
    (hev : s.event = some ev) (ho : o ∈ selectOptions s.categories)
    (hid : o.value = JSVal.num n) (hsafe : n.natAbs < 2 ^ 53) :
    ∃ (before : List Category) (first : Category) (after : List Category),
      s.categories = before ++ first :: after ∧ first.id = JSVal.num n ∧
      (∀ c ∈ before, c.id ≠ JSVal.num n) ∧
      targetValue o = some (numberToString n) ∧
      onCategoryChange (numberToString n) s =
        ({ s with event := some (setProp "categories"
            (JSVal.arr [JSVal.obj [("id", JSVal.num n), ("name", first.name)]]) ev) }, []) ∧
      eventCategories (onCategoryChange (numberToString n) s).1 =
        JSVal.arr [JSVal.obj [("id", JSVal.num n), ("name", first.name)]] ∧
      (∀ key, key ≠ "categories" →
        lookup key (setProp "categories"
          (JSVal.arr [JSVal.obj [("id", JSVal.num n), ("name", first.name)]]) ev) =
          lookup key ev) ∧
      ((s.categories.map Category.id).Nodup → first.name = o.label) := by
  have ho2 : o ∈ s.categories.map (fun category =>
      ({ key := category.id, value := category.id, label := category.name } : OptionView)) := by
    rcases List.mem_cons.mp ho with h1 | h1
    · rw [h1] at hid
      simp [placeholderOption] at hid
    · exact h1
  obtain ⟨c, hc, hoc⟩ := List.mem_map.mp ho2
  have hcid : c.id = JSVal.num n := by
    rw [← hoc] at hid
    exact hid
  obtain ⟨before, first, after, hsplit, hfid, hbefore, hfind⟩ :=
    findCategory_first n s.categories ⟨c, hc, hcid⟩
  have hparse : parseInt (numberToString n) = JSNumber.int n :=
    parseInt_numberToString n hsafe
  have htarget : targetValue o = some (numberToString n) := by
    simp only [targetValue, hid]
  have hrun : onCategoryChange (numberToString n) s =
      ({ s with event := some (setProp "categories"
          (JSVal.arr [JSVal.obj [("id", JSVal.num n), ("name", first.name)]]) ev) }, []) := by
    simp only [onCategoryChange, hparse, hfind, hev, spreadEvent, hfid]
  refine ⟨before, first, after, hsplit, hfid, hbefore, htarget, hrun, ?_, ?_, ?_⟩
  · rw [hrun]
    simp only [eventCategories, lookup_setProp_self]
  · intro key hkey
    exact lookup_setProp_ne _ _ _ _ hkey
  · intro hnodup
    rw [hsplit] at hnodup hc
    simp only [List.map_append, List.map_cons] at hnodup
    have hnd := List.nodup_append.mp hnodup
    have hnotin : first.id ∉ after.map Category.id := (List.nodup_cons.mp hnd.2.1).1
    rcases List.mem_append.mp hc with h1 | h1
    · exact absurd hcid (hbefore c h1)
    · rcases List.mem_cons.mp h1 with h2 | h2
      · rw [← hoc, h2]
      · exfalso
        apply hnotin
        rw [hfid, ← hcid]
        exact List.mem_map_of_mem _ h2

/-- C1 (the code differs): the category payload `repeatedIdCategories` is
stored as it comes, its third entry repeating the identifier 1 of the first,
although the code calls the list `uniqueCategories`; the select then offers
`relaxation` as its fourth option (after the placeholder), with value `1`, and
choosing it stores `[{ id: 1, name: "sports" }]`, the first entry with that
identifier, and not the chosen option's `{ id: 1, name: "relaxation" }`. -/
theorem onCategoryChange_repeated_id :
    repeatedIdEditing.categories =
      [{ id := JSVal.num 1, name := JSVal.str "sports" },
        { id := JSVal.num 2, name := JSVal.str "games" },
        { id := JSVal.num 1, name := JSVal.str "relaxation" }] ∧
    (∃ f, render repeatedIdEditing = View.form f ∧ f.options[3]? = some relaxationOption) ∧
    targetValue relaxationOption = some "1" ∧
    step "1" repeatedIdEditing (Action.selectCategory "1") =
      some (onCategoryChange "1" repeatedIdEditing) ∧
    eventCategories (onCategoryChange "1" repeatedIdEditing).1 =
      JSVal.arr [JSVal.obj [("id", JSVal.num 1), ("name", JSVal.str "sports")]] ∧
    eventCategories (onCategoryChange "1" repeatedIdEditing).1 ≠
      JSVal.arr [JSVal.obj [("id", relaxationOption.value), ("name", relaxationOption.label)]] :=
  ⟨by decide,
    ⟨{ title := JSVal.str "Padel", description := JSVal.str "Beginners welcome",
        startTime := JSVal.str "2023-03-10T17:00", endTime := JSVal.str "2023-03-10T18:30",
        categoryValue := JSVal.num 1,
        options := selectOptions repeatedIdEditing.categories, dialogOpen := false },
      by decide, by decide⟩,
    by decide, by decide, by decide, by decide⟩

/-! ## Formatting a timestamp (C5, C6) -/

/-- The model of YearFromTime meets its definition in the language standard:
the year found is the one whose first day is the latest not after `day`. -/
theorem yearFromDay_spec (day : Int) :
    dayFromYear (yearFromDay day) ≤ day ∧ day < dayFromYear (yearFromDay day + 1) := by
  unfold yearFromDay
  simp only []
  generalize hq : day * 400 / 146097 = q
  have h1 : 146097 * q ≤ day * 400 := by omega
  have h2 : day * 400 < 146097 * q + 146097 := by omega
  clear hq
  split_ifs with ha hb
  · rw [show 1970 + q - 1 + 1 = 1970 + q by ring]
    refine ⟨?_, ha⟩
    unfold dayFromYear at *
    omega
  · rw [show 1970 + q + 1 + 1 = 1970 + q + 2 by ring]
    refine ⟨hb, ?_⟩
    unfold dayFromYear at *
    omega
  · exact ⟨not_lt.mp ha, not_le.mp hb⟩

theorem formatDateTimeLocal_valid (host : Host) (v : JSVal) (t : Int)
    (h : newDate host v = Except.ok (some t)) :
    formatDateTimeLocal host v = Except.ok (minuteString t) := by
  simp only [formatDateTimeLocal, h, toISOString, minuteString]

theorem formatDateTimeLocal_invalid (host : Host) (v : JSVal)
    (h : newDate host v = Except.ok none) :
    formatDateTimeLocal host v = Except.error JSError.rangeError := by
  simp only [formatDateTimeLocal, h, toISOString]

theorem minuteString_ne_empty (t : Int) : minuteString t ≠ "" := by
  intro h
  have hdata := congrArg String.data h
  simp only [minuteString, sliceFromStart] at hdata
  have hne : isoChars t ≠ [] := by simp [isoChars]
  cases hiso : isoChars t with
  | nil => exact hne hiso
  | cons c cs =>
    rw [hiso] at hdata
    simp at hdata

theorem specLocalDateTime_utc (host : Host) (t : Int) (h : host.localTZA t true = 0) :
    specLocalDateTime host t = minuteString t := by
  simp [specLocalDateTime, h]

/-- The right operand of `||` in `fetchEvent` is never used: what
`formatDateTimeLocal` returns is never the empty string. -/
theorem fallback_unused (t : Int) (fallback : JSVal) :
    jsOr (JSVal.str (minuteString t)) fallback = JSVal.str (minuteString t) := by
  simp [jsOr, truthy, minuteString_ne_empty t]

/-- C5 (the code differs): for the matching entry 3 of `untimedEvents`, which
has no `startTime`, `fetchEvent` does not store `2023-12-01T19:00`: on every
host `toISOString` throws a `RangeError`, the `catch` block runs, the error
toast is emitted and the state is left as it was. -/
theorem fetchEvent_absent_startTime (host : Host) (s : PageState) :
    getProp (JSVal.obj [("id", JSVal.num 3), ("title", JSVal.str "Quiz"),
      ("description", JSVal.str "Teams of four"), ("categories", JSVal.arr []),
      ("endTime", JSVal.str "2023-04-01T21:00:00.000Z")]) "startTime" =
        Except.ok JSVal.undefined ∧
    formatDateTimeLocal host JSVal.undefined = Except.error JSError.rangeError ∧
    fetchEvent host "3" (okResponse untimedEvents) s =
      (s, [Effect.consoleError "Fout bij het ophalen van evenement:" JSError.rangeError,
        Effect.toast loadErrorToast]) :=
  ⟨rfl, rfl, rfl⟩

/-- C6 (the code differs): for a viewer one hour ahead of UTC,
`formatDateTimeLocal` returns the UTC wall clock of the instant, not the local
one: `2023-03-10T17:00:00.000Z` is 18:00 local and is rendered `17:00`, and
`2023-03-10T17:00`, which `Date.parse` reads as 17:00 local, is rendered
`16:00`. -/
theorem formatDateTimeLocal_is_utc :
    dateParse plusOneHost "2023-03-10T17:00:00.000Z" = some 1678467600000 ∧
    formatDateTimeLocal plusOneHost (JSVal.str "2023-03-10T17:00:00.000Z") =
      Except.ok "2023-03-10T17:00" ∧
    specLocalDateTime plusOneHost 1678467600000 = "2023-03-10T18:00" ∧
    dateParse plusOneHost "2023-03-10T17:00" = some 1678464000000 ∧
    formatDateTimeLocal plusOneHost (JSVal.str "2023-03-10T17:00") =
      Except.ok "2023-03-10T16:00" ∧
    specLocalDateTime plusOneHost 1678464000000 = "2023-03-10T17:00" :=
  ⟨by decide, by decide, by decide, by decide, by decide, by decide⟩

/-! ## Loading the event: success (C3) -/

theorem arrayFind_first_match (eventId : String) (before after : List JSVal) (fields : Obj)
    (hbefore : ∀ e ∈ before, ∃ idv, getProp e "id" = Except.ok idv ∧
      strictEqualsNumber idv (parseInt eventId) = false)
    (hmatch : strictEqualsNumber (lookup "id" fields) (parseInt eventId) = true) :
    arrayFind (matchesEventId eventId) (before ++ JSVal.obj fields :: after) =
      Except.ok (JSVal.obj fields) := by
  induction before with
  | nil => simp [arrayFind, matchesEventId, getProp, hmatch]
  | cons x xs ih =>
    obtain ⟨idv, hid, hne⟩ := hbefore x (List.mem_cons_self _ _)
    simp only [List.cons_append, arrayFind, matchesEventId, hid, hne]
    exact ih (fun e he => hbefore e (List.mem_cons_of_mem _ he))

theorem selectValue_setProp (key : String) (v : JSVal) (o : Obj) (h : "categories" ≠ key) :
    selectValue (setProp key v o) = selectValue o := by
  simp only [selectValue, lookup_setProp_ne _ _ _ _ h]

/-- What `fetchEvent` does on a well-formed entry: when the payload's `events`
is an array in which the first entry whose `id` is `===` the parsed route
parameter is the object `fields` (the entries before it having a readable,
different `id`), and `new Date` gives valid time values `t1` and `t2` for its
`startTime` and `endTime`, then `fetchEvent` emits nothing (no error toast) and
sets `event` to a copy of that entry in which `startTime` and `endTime` are the
first sixteen characters of `toISOString()` of `t1` and `t2`; every other
property (`id`, `title`, `description`, `categories`, ...) is the entry's, and
the page shows the form with these values unless the select's `value`
expression throws on the entry's `categories`. -/
theorem fetchEvent_populates (host : Host) (eventId : String) (data : JSVal)
    (before after : List JSVal) (fields : Obj) (t1 t2 : Int) (s : PageState)
    (hdata : getProp data "events" = Except.ok (JSVal.arr (before ++ JSVal.obj fields :: after)))
    (hbefore : ∀ e ∈ before, ∃ idv, getProp e "id" = Except.ok idv ∧
      strictEqualsNumber idv (parseInt eventId) = false)
    (hmatch : strictEqualsNumber (lookup "id" fields) (parseInt eventId) = true)
    (hstart : newDate host (lookup "startTime" fields) = Except.ok (some t1))
    (hend : newDate host (lookup "endTime" fields) = Except.ok (some t2)) :
    fetchEvent host eventId (okResponse data) s =
      ({ s with event := some (setProp "endTime" (JSVal.str (minuteString t2))
          (setProp "startTime" (JSVal.str (minuteString t1)) fields)) }, []) ∧
    toasts (fetchEvent host eventId (okResponse data) s).2 = [] ∧
    lookup "startTime" (setProp "endTime" (JSVal.str (minuteString t2))
      (setProp "startTime" (JSVal.str (minuteString t1)) fields)) =
        JSVal.str (minuteString t1) ∧
    lookup "endTime" (setProp "endTime" (JSVal.str (minuteString t2))
      (setProp "startTime" (JSVal.str (minuteString t1)) fields)) =
        JSVal.str (minuteString t2) ∧
    (∀ key, key ≠ "startTime" → key ≠ "endTime" →
      lookup key (setProp "endTime" (JSVal.str (minuteString t2))
        (setProp "startTime" (JSVal.str (minuteString t1)) fields)) = lookup key fields) ∧
    render (fetchEvent host eventId (okResponse data) s).1 =
      (match selectValue fields with
        | Except.error e => View.threw e
        | Except.ok categoryValue =>
          View.form
            { title := lookup "title" fields
              description := lookup "description" fields
              startTime := JSVal.str (minuteString t1)
              endTime := JSVal.str (minuteString t2)
              categoryValue := categoryValue
              options := selectOptions s.categories
              dialogOpen := s.isOpen }) := by
  have hfind := arrayFind_first_match eventId before after fields hbefore hmatch
  have htry : fetchEventTry host eventId (okResponse data) =
      Except.ok (setProp "endTime" (JSVal.str (minuteString t2))
        (setProp "startTime" (JSVal.str (minuteString t1)) fields)) := by
    simp only [fetchEventTry, okResponse, Bool.not_true, Bool.false_eq_true, if_false, hdata,
      hfind]
    simp only [truthy, getProp, Bool.not_true, Bool.false_eq_true, if_false,
      formatDateTimeLocal_valid host _ t1 hstart, formatDateTimeLocal_valid host _ t2 hend,
      fallback_unused, spread]
  have hrun : fetchEvent host eventId (okResponse data) s =
      ({ s with event := some (setProp "endTime" (JSVal.str (minuteString t2))
          (setProp "startTime" (JSVal.str (minuteString t1)) fields)) }, []) := by
    simp only [fetchEvent, htry]
  have hkeep : ∀ key, key ≠ "startTime" → key ≠ "endTime" →
      lookup key (setProp "endTime" (JSVal.str (minuteString t2))
        (setProp "startTime" (JSVal.str (minuteString t1)) fields)) = lookup key fields := by
    intro key h1 h2
    rw [lookup_setProp_ne _ _ _ _ h2, lookup_setProp_ne _ _ _ _ h1]
  have hs : lookup "startTime" (setProp "endTime" (JSVal.str (minuteString t2))
      (setProp "startTime" (JSVal.str (minuteString t1)) fields)) =
        JSVal.str (minuteString t1) := by
    rw [lookup_setProp_ne _ _ _ _ (by decide), lookup_setProp_self]
  refine ⟨hrun, by rw [hrun]; rfl, hs, lookup_setProp_self _ _ _, hkeep, ?_⟩
  rw [hrun]
  simp only [render, hs, lookup_setProp_self, hkeep "title" (by decide) (by decide),
    hkeep "description" (by decide) (by decide),
    selectValue_setProp _ _ _ (by decide : "categories" ≠ "endTime"),
    selectValue_setProp _ _ _ (by decide : "categories" ≠ "startTime")]

/-- On every host, a matching entry whose `startTime` is absent or does not
parse (an Invalid Date) sends `fetchEvent` to its `catch` block with a
`RangeError`; the same holds for `endTime` when `startTime` is valid. -/
theorem fetchEvent_invalid_timestamp (host : Host) (eventId : String) (data : JSVal)
    (before after : List JSVal) (fields : Obj) (s : PageState)
    (hdata : getProp data "events" = Except.ok (JSVal.arr (before ++ JSVal.obj fields :: after)))
    (hbefore : ∀ e ∈ before, ∃ idv, getProp e "id" = Except.ok idv ∧
      strictEqualsNumber idv (parseInt eventId) = false)
    (hmatch : strictEqualsNumber (lookup "id" fields) (parseInt eventId) = true)
    (hinvalid : newDate host (lookup "startTime" fields) = Except.ok none ∨
      ((∃ t1, newDate host (lookup "startTime" fields) = Except.ok (some t1)) ∧
        newDate host (lookup "endTime" fields) = Except.ok none)) :
    fetchEvent host eventId (okResponse data) s =
      (s, [Effect.consoleError "Fout bij het ophalen van evenement:" JSError.rangeError,
        Effect.toast loadErrorToast]) := by
  have hfind := arrayFind_first_match eventId before after fields hbefore hmatch
  have htry : fetchEventTry host eventId (okResponse data) = Except.error JSError.rangeError := by
    simp only [fetchEventTry, okResponse, Bool.not_true, Bool.false_eq_true, if_false, hdata,
      hfind]
    rcases hinvalid with h | ⟨⟨t1, h1⟩, h2⟩
    · simp only [truthy, getProp, Bool.not_true, Bool.false_eq_true, if_false,
        formatDateTimeLocal_invalid host _ h]
    · simp only [truthy, getProp, Bool.not_true, Bool.false_eq_true, if_false,
        formatDateTimeLocal_valid host _ t1 h1, formatDateTimeLocal_invalid host _ h2]
  simp only [fetchEvent, htry]

/-- C3 (the code differs): entry 4 of `untimedEvents` has the identifier the
route parameter `4` parses to, and a valid `startTime`, but no `endTime`; on
every host `fetchEvent` does not set the form state to that entry: formatting
the absent `endTime` throws a `RangeError` before the `||` fallback is reached,
the `catch` block emits the error toast, and the state is left as it was. -/
theorem fetchEvent_absent_endTime (host : Host) (s : PageState) :
    parseInt "4" = JSNumber.int 4 ∧
    lookup "id" [("id", JSVal.num 4), ("title", JSVal.str "Walk"),
      ("description", JSVal.str "Bring boots"), ("categories", JSVal.arr []),
      ("startTime", JSVal.str "2023-04-02T09:00:00.000Z")] = JSVal.num 4 ∧
    formatDateTimeLocal host (JSVal.str "2023-04-02T09:00:00.000Z") =
      Except.ok "2023-04-02T09:00" ∧
    getProp (JSVal.obj [("id", JSVal.num 4), ("title", JSVal.str "Walk"),
      ("description", JSVal.str "Bring boots"), ("categories", JSVal.arr []),
      ("startTime", JSVal.str "2023-04-02T09:00:00.000Z")]) "endTime" =
        Except.ok JSVal.undefined ∧
    fetchEvent host "4" (okResponse untimedEvents) s =
      (s, [Effect.consoleError "Fout bij het ophalen van evenement:" JSError.rangeError,
        Effect.toast loadErrorToast]) ∧
    toasts (fetchEvent host "4" (okResponse untimedEvents) s).2 = [loadErrorToast] :=
  ⟨by decide, by decide, rfl, rfl, rfl, rfl⟩

end EditEventPage
